import Mathlib

/-!
# rmcweb Redfish handlers: a shallow embedding

The resource handlers of `redfish-core/lib/rmc_chassis.hpp`, `rmc_managers.hpp`,
`rmc_power.hpp` and `rmc_systems.hpp`, translated statement by statement into
state transformers over an explicit response state.

* `Json` follows the behaviour of `nlohmann::json` that the handlers rely on:
  `operator[]` with a key or an index (creating missing entries, turning `null`
  into an object or an array), `push_back`, `size`, assignment.
* `Response` is the part of `crow::Response` the handlers touch: the status
  (`res.result(..)`), `res.jsonValue`, and `res.end()`.
* `State` adds the use count of the `std::shared_ptr<AsyncResp>` a handler
  creates, and a chronological event log, so that statements about order
  ("no write after the response is sent") and about calls can be made.
-/

namespace redfish

/-! ## JSON values -/

/-- JSON documents as `nlohmann::json` stores them. Every number the handlers
store is an integer (`int` constants, `size()` results). Objects are kept as
association lists with unique keys in order of first insertion; `nlohmann::json`
keeps them ordered by key, which no statement below depends on. -/
inductive Json where
  | null
  | bool (b : Bool)
  | int (n : Int)
  | str (s : String)
  | arr (xs : List Json)
  | obj (kvs : List (String × Json))

/-- One step of access into a document: `j["key"]` or `j[i]`. -/
inductive PathElem where
  | key (k : String)
  | idx (i : Nat)
  deriving DecidableEq

namespace Json

/-- Read access to a member of an object (`find`), absent on anything else. -/
def get? : Json → String → Option Json
  | obj kvs, k => kvs.lookup k
  | _, _ => none

/-- Read access to an element of an array. -/
def at? : Json → Nat → Option Json
  | arr xs, i => xs[i]?
  | _, _ => none

/-- Read access along a path. -/
def atPath? : List PathElem → Json → Option Json
  | [], j => some j
  | .key k :: ps, j => (j.get? k).bind (atPath? ps)
  | .idx i :: ps, j => (j.at? i).bind (atPath? ps)

/-- The result of `size()`: 0 for null, the number of elements of an array or
object, 1 for a scalar. -/
def size : Json → Nat
  | null => 0
  | arr xs => xs.length
  | obj kvs => kvs.length
  | _ => 1

/-- The string held by a string value. -/
def str? : Json → Option String
  | str s => some s
  | _ => none

/-- The integer held by a number value. -/
def int? : Json → Option Int
  | int n => some n
  | _ => none

/-- The elements of an array value. -/
def arr? : Json → Option (List Json)
  | arr xs => some xs
  | _ => none

/-- Apply `f` to the member `k` of an object given as its list of members,
inserting a `null` member first when `k` is absent (`std::map::operator[]`). -/
def updKey (k : String) (f : Json → Option Json) :
    List (String × Json) → Option (List (String × Json))
  | [] => (f null).map fun v => [(k, v)]
  | (k', v) :: rest =>
    if k' = k then (f v).map fun v' => (k', v') :: rest
    else (updKey k f rest).map fun r => (k', v) :: r

/-- Apply `f` to the element `i` of an array given as its list of elements,
filling the array with `null` up to index `i` first when it is shorter. -/
def updIdx (f : Json → Option Json) : Nat → List Json → Option (List Json)
  | 0, [] => (f null).map fun v => [v]
  | 0, x :: xs => (f x).map fun v => v :: xs
  | i + 1, [] => (updIdx f i []).map fun r => null :: r
  | i + 1, x :: xs => (updIdx f i xs).map fun r => x :: r

/-- The effect of `j[p1][p2]...` followed by an operation `f` on the entry
reached. `operator[]` with a key turns `null` into an object, with an index
turns `null` into an array, and throws a `type_error` on any other mismatch
(`none`). -/
def update : List PathElem → (Json → Option Json) → Json → Option Json
  | [], f, j => f j
  | .key k :: ps, f, null => (updKey k (update ps f) []).map obj
  | .key k :: ps, f, obj kvs => (updKey k (update ps f) kvs).map obj
  | .idx i :: ps, f, null => (updIdx (update ps f) i []).map arr
  | .idx i :: ps, f, arr xs => (updIdx (update ps f) i xs).map arr
  | _ :: _, _, _ => none

/-- The effect of `push_back(v)` on the entry it is called on: `null` becomes
an array, an array grows by one, anything else throws a `type_error`. -/
def pushBack (v : Json) : Json → Option Json
  | null => some (arr [v])
  | arr xs => some (arr (xs ++ [v]))
  | _ => none

/-- An object with the single member `@odata.id`, as the initializer list
`{{"@odata.id", link}}` builds it. -/
def odataId (link : String) : Json :=
  obj [("@odata.id", str link)]

end Json

/-! ## Response state -/

/-- The error messages of the `messages::` helpers that the handlers call. -/
inductive Message where
  | internalError
  | actionParameterNotSupported (arg1 arg2 : String)
  deriving DecidableEq

/-- What a handler does, in the order it does it. -/
inductive Event where
  /-- The statement `res.result(code)`. -/
  | status (code : Nat)
  /-- A store into `res.jsonValue` at the given path. -/
  | write (path : List PathElem)
  /-- A call of a `messages::` helper on the response. -/
  | message (m : Message)
  /-- A send attempt: a call of `res.end()`. -/
  | finish
  /-- An access `params[i]`. -/
  | index (i : Nat)
  /-- Entry into a member function called by the handler. -/
  | call (fn : String)
  /-- Return from a member function called by the handler. -/
  | ret (fn : String)
  deriving DecidableEq

/-- What is handed to the completion handler when the response is sent. -/
structure Sent where
  result : Nat
  body : Json
  error : List Message

/-- Modelled from the spec: `crow::Response` is not among the sources. The
response carries the stored HTTP status (default 200 unless overridden), the
JSON body under construction, the structured error part of the body that the
`messages::` helpers fill, the finalized flag, and what was sent when the
response was finalized. -/
structure Response where
  result : Nat := 200
  jsonValue : Json := Json.null
  error : List Message := []
  completed : Bool := false
  sent : Option Sent := none

/-- The state a handler runs on: the response, the use count of the
`std::shared_ptr<AsyncResp>` created over it (0 when there is none), and the
log of events so far, oldest first. -/
structure State where
  res : Response := {}
  useCount : Nat := 0
  log : List Event := []

/-- The state a handler is invoked on: a fresh response. -/
def State.init : State := {}

/-- A statement of a handler. `none` stands for the cases C++ leaves without
a result: an exception thrown by `nlohmann::json`, an out-of-range `params[i]`,
an access through a released `AsyncResp`. -/
abbrev Op := State → Option State

/-- Statements in sequence. -/
def Op.seq : List Op → Op
  | [], st => some st
  | op :: ops, st => (op st).bind (Op.seq ops)

/-- Append an event to the log. -/
def logEvent (ev : Event) : Op
  | ⟨res, n, l⟩ => some ⟨res, n, l ++ [ev]⟩

/-- The statement `res.result(code)`. -/
def resResult (code : Nat) : Op
  | ⟨⟨_, j, e, c, s⟩, n, l⟩ => some ⟨⟨code, j, e, c, s⟩, n, l ++ [Event.status code]⟩

/-- Modelled from the spec: `crow::Response::end` is not among the sources.
Every call is a send attempt; the first one finalizes the response and sends
status, body and error as they are at that moment, a second send attempt is a
no-op. -/
def resEnd : Op
  | ⟨⟨r, j, e, true, s⟩, n, l⟩ => some ⟨⟨r, j, e, true, s⟩, n, l ++ [Event.finish]⟩
  | ⟨⟨r, j, e, false, _⟩, n, l⟩ =>
    some ⟨⟨r, j, e, true, some ⟨r, j, e⟩⟩, n, l ++ [Event.finish]⟩

/-- An operation `f` on the entry `res.jsonValue[p1][p2]...`. -/
def jsonUpdate (path : List PathElem) (f : Json → Option Json) : Op
  | ⟨⟨r, j, e, c, s⟩, n, l⟩ =>
    (j.update path f).map fun j' => ⟨⟨r, j', e, c, s⟩, n, l ++ [Event.write path]⟩

/-- The statement `res.jsonValue[p1][p2]... = v`. -/
def assign (path : List PathElem) (v : Json) : Op :=
  jsonUpdate path fun _ => some v

/-- The declaration `nlohmann::json &x = res.jsonValue[p1][p2]...`, which
creates the entry when it is missing. -/
def reference (path : List PathElem) : Op :=
  jsonUpdate path some

/-- The statement `res.jsonValue[p1][p2]....push_back(v)`. -/
def pushBack (path : List PathElem) (v : Json) : Op :=
  jsonUpdate path (Json.pushBack v)

/-- The statement `res.jsonValue[dst] = x.size()` for a reference `x` to the
entry at `src`. -/
def assignSize (dst src : List PathElem) : Op
  | ⟨⟨r, j, e, c, s⟩, n, l⟩ =>
    (j.atPath? src).bind fun x => assign dst (Json.int x.size) ⟨⟨r, j, e, c, s⟩, n, l⟩

/-- The access `params[i]`, binding its value for the rest of the handler. -/
def param (params : List String) (i : Nat) (rest : String → Op) : Op
  | ⟨res, n, l⟩ =>
    match params[i]? with
    | none => none
    | some p => rest p ⟨res, n, l ++ [Event.index i]⟩

/-- A call of a member function, logged at entry and return. -/
def invoke (fn : String) (body : Op) : Op :=
  Op.seq [logEvent (Event.call fn), body, logEvent (Event.ret fn)]

/-! ## AsyncResp and the error helpers -/

/-- Modelled from the spec: `AsyncResp` (declared in `node.hpp`) is not among
the sources. It is the reference-counted completion object wrapping the
outgoing response: `std::make_shared<AsyncResp>(res)` creates it with one
owner. -/
def AsyncResp.make : Op
  | ⟨res, 0, l⟩ => some ⟨res, 1, l⟩
  | ⟨_, _ + 1, _⟩ => none

/-- A further owner of the `AsyncResp`: a copy of the `shared_ptr`. -/
def AsyncResp.copy : Op
  | ⟨_, 0, _⟩ => none
  | ⟨res, n + 1, l⟩ => some ⟨res, n + 2, l⟩

/-- Modelled from the spec: an owner of the `AsyncResp` goes out of scope.
When the last outstanding owner is released the response is sent. -/
def AsyncResp.release : Op
  | ⟨_, 0, _⟩ => none
  | ⟨res, 1, l⟩ => resEnd ⟨res, 0, l⟩
  | ⟨res, n + 2, l⟩ => some ⟨res, n + 1, l⟩

/-- A statement that goes through `asyncResp->res`: the pointer must own the
object. -/
def viaAsync (op : Op) : Op
  | ⟨_, 0, _⟩ => none
  | ⟨res, n + 1, l⟩ => op ⟨res, n + 1, l⟩

/-- The body of a member function whose statements all go through
`asyncResp->res`. -/
def asyncSeq (ops : List Op) : Op :=
  Op.seq (ops.map viaAsync)

/-- A call `fn(.., asyncResp, ..)` of a member function that takes the
`std::shared_ptr<AsyncResp>` by value: the copy lives for the call. -/
def invokeShared (fn : String) (body : Op) : Op :=
  Op.seq [AsyncResp.copy, invoke fn body, AsyncResp.release]

/-- A helper of `messages::` called on the response, with the status the
error taxonomy gives it. -/
def reportMessage (code : Nat) (m : Message) : Op
  | ⟨⟨_, j, e, c, s⟩, n, l⟩ => some ⟨⟨code, j, e ++ [m], c, s⟩, n, l ++ [Event.message m]⟩

/-- Modelled from the spec: `messages::internalError` is not among the
sources. InternalError is rendered as HTTP 500 with a generic message. -/
def messages.internalError : Op :=
  reportMessage 500 Message.internalError

/-- Modelled from the spec: `messages::actionParameterNotSupported` is not
among the sources. UnsupportedActionParameter is rendered as HTTP 400, naming
the value (`arg1`) and the parameter (`arg2`). -/
def messages.actionParameterNotSupported (arg1 arg2 : String) : Op :=
  reportMessage 400 (Message.actionParameterNotSupported arg1 arg2)

/-! ## rmc_chassis.hpp -/

/-- The member function `ChassisCollection::getChassisList`. -/
def ChassisCollection.getChassisList : Op :=
  let chassisArray := [PathElem.key "Members"]
  asyncSeq [
    reference chassisArray,
    assign chassisArray (Json.arr []),
    pushBack chassisArray (Json.odataId "/redfish/v1/Chassis/chassis1"),
    pushBack chassisArray (Json.odataId "/redfish/v1/Chassis/chassis2"),
    pushBack chassisArray (Json.odataId "/redfish/v1/Chassis/chassis3"),
    assignSize [.key "Members@odata.count"] chassisArray]

/-- The handler `ChassisCollection::doGet`. The parameter vector is not looked at. -/
def ChassisCollection.doGet (_params : List String) : Op :=
  Op.seq [
    assign [.key "@odata.type"] (.str "#ChassisCollection.ChassisCollection"),
    assign [.key "@odata.id"] (.str "/redfish/v1/Chassis"),
    assign [.key "@odata.context"]
      (.str "/redfish/v1/$metadata#ChassisCollection.ChassisCollection"),
    assign [.key "Name"] (.str "Chassis Collection"),
    AsyncResp.make,
    invokeShared "getChassisList" ChassisCollection.getChassisList,
    AsyncResp.release]

/-- The member function `Chassis::getChassis`. -/
def Chassis.getChassis (chassisId : String) : Op :=
  asyncSeq [
    assign [.key "Name"] (.str chassisId),
    assign [.key "Id"] (.str chassisId),
    assign [.key "Thermal"] (Json.odataId ("/redfish/v1/Chassis/" ++ chassisId ++ "/Thermal")),
    assign [.key "Power"] (Json.odataId ("/redfish/v1/Chassis/" ++ chassisId ++ "/Power"))]

/-- The local `ipaddr` of `Chassis::doGet`. -/
def Chassis.ipaddr (chassisId : String) : String :=
  if chassisId = "chassis1" then "192.168.1.101"
  else if chassisId = "chassis2" then "192.168.1.102"
  else if chassisId = "chassis3" then "192.168.1.103"
  else "192.168.1.100"

/-- The handler `Chassis::doGet`. An assignment of the empty braces stores `null`. -/
def Chassis.doGet (params : List String) : Op :=
  if params.length ≠ 1 then
    Op.seq [messages.internalError, resEnd]
  else
    param params 0 fun chassisId =>
    let status := [PathElem.key "Status"]
    Op.seq [
      assign [.key "@odata.type"] (.str "#Chassis.v1_4_0.Chassis"),
      assign [.key "@odata.id"] (.str ("/redfish/v1/Chassis/" ++ chassisId)),
      assign [.key "@odata.context"] (.str "/redfish/v1/$metadata#Chassis.Chassis"),
      assign [.key "Description"] (.str "Ocp Node"),
      assign [.key "Manufacturer"] (.str "Inspur"),
      assign [.key "Model"] (.str "OCP"),
      assign [.key "SKU"] (.str "2810-9827-5523-1435"),
      assign [.key "SerialNumber"] (.str "EE1D253"),
      assign [.key "PartNumber"] (.str "NF1750"),
      assign [.key "IpAddr"] (.str (Chassis.ipaddr chassisId)),
      assign [.key "AssetTag"] .null,
      assign [.key "IndicatorLED"] .null,
      assign [.key "PowerState"] (.str "On"),
      assign [.key "ChassisType"] (.str "Rack"),
      reference status,
      assign (status ++ [.key "State"]) (.str "Enabled"),
      assign (status ++ [.key "Health"]) (.str "OK"),
      assign (status ++ [.key "HealthRollup"]) .null,
      assign [.key "Links"] .null,
      assign [.key "ContainedBy"] .null,
      assign [.key "ComputerSystems"] .null,
      assign [.key "ManagedBy"] (Json.odataId "/redfish/v1/Managers/rmc"),
      assign [.key "ManagersInChassis"] .null,
      assign [.key "PoweredBy"] .null,
      assign [.key "CooledBy"] .null,
      assign [.key "Storage"] .null,
      assign [.key "Drives"] .null,
      AsyncResp.make,
      invokeShared "getChassis" (Chassis.getChassis chassisId),
      AsyncResp.release]

/-! ## rmc_power.hpp -/

/-- The related item every power entry points to. -/
def Power.relatedItem : Json :=
  Json.odataId "/redfish/v1/Chassis/node1"

/-- The member function `Power::getPowerControlInfo`. -/
def Power.getPowerControlInfo (chassis_name : String) : Op :=
  let item := [PathElem.key "PowerControl", PathElem.idx 0]
  asyncSeq [
    reference item,
    assign (item ++ [.key "@odata.id"])
      (.str ("/redfish/v1/Chassis/" ++ chassis_name ++ "/Power#/PowerControl/0")),
    assign (item ++ [.key "MemberId"]) (.int 0),
    assign (item ++ [.key "Name"]) (.str "System Power Control"),
    assign (item ++ [.key "PowerConsumedWatts"]) (.int 8000),
    assign (item ++ [.key "PowerRequestedWatts"]) (.int 8500),
    assign (item ++ [.key "PowerAvailableWatts"]) (.int 8500),
    assign (item ++ [.key "PowerCapacityWatts"]) (.int 10000),
    assign (item ++ [.key "PowerAllocatedWatts"]) (.int 8500),
    assign (item ++ [.key "PowerMetrics", .key "IntervalInMin"]) .null,
    assign (item ++ [.key "PowerMetrics", .key "MinConsumedWatts"]) .null,
    assign (item ++ [.key "PowerMetrics", .key "MaxConsumedWatts"]) .null,
    assign (item ++ [.key "PowerMetrics", .key "AverageConsumedWatts"]) .null,
    assign (item ++ [.key "PowerLimit", .key "LimitInWatts"]) .null,
    assign (item ++ [.key "PowerLimit", .key "LimitException"]) .null,
    assign (item ++ [.key "PowerLimit", .key "CorrectionInMs"]) .null,
    assign (item ++ [.key "RelatedItem", .idx 0]) Power.relatedItem,
    assign (item ++ [.key "Status", .key "State"]) (.str "Enabled"),
    assign (item ++ [.key "Status", .key "Health"]) (.str "OK"),
    assign (item ++ [.key "Status", .key "HealthRollup"]) (.str "OK")]

/-- The member function `Power::getVoltagesInfo`. Its parameters `id`,
`sensor_number` and `value` are of type `int`; `id` is used as an array index
and every call passes one of 0..4 for it. -/
def Power.getVoltagesInfo (chassis_name : String) (id : Nat) (sensor_name : String)
    (sensor_number : Int) (value : Int) : Op :=
  let item := [PathElem.key "Voltages", PathElem.idx id]
  asyncSeq [
    reference item,
    assign (item ++ [.key "@odata.id"])
      (.str ("/redfish/v1/Chassis/" ++ chassis_name ++ "/Power#/Voltages/" ++ toString id)),
    assign (item ++ [.key "MemberId"]) (.int id),
    assign (item ++ [.key "Name"]) (.str sensor_name),
    assign (item ++ [.key "SensorNumber"]) (.int sensor_number),
    assign (item ++ [.key "Status", .key "State"]) (.str "Enabled"),
    assign (item ++ [.key "Status", .key "Health"]) (.str "OK"),
    assign (item ++ [.key "ReadingVolts"]) (.int value),
    assign (item ++ [.key "UpperThresholdNonCritical"]) .null,
    assign (item ++ [.key "UpperThresholdCritical"]) .null,
    assign (item ++ [.key "UpperThresholdFatal"]) .null,
    assign (item ++ [.key "LowerThresholdNonCritical"]) .null,
    assign (item ++ [.key "LowerThresholdCritical"]) .null,
    assign (item ++ [.key "LowerThresholdFatal"]) .null,
    assign (item ++ [.key "MinReadingRange"]) .null,
    assign (item ++ [.key "MaxReadingRange"]) .null,
    assign (item ++ [.key "PhysicalContext"]) (.str "VoltageRegulator"),
    assign (item ++ [.key "RelatedItem", .idx 0]) Power.relatedItem]

/-- The member function `Power::getPowerSuppliesInfo`. -/
def Power.getPowerSuppliesInfo (chassis_name : String) : Op :=
  let item := [PathElem.key "PowerSupplies", PathElem.idx 0]
  asyncSeq [
    reference item,
    assign (item ++ [.key "@odata.id"])
      (.str ("/redfish/v1/Chassis/" ++ chassis_name ++ "/Power#/PowerSupplies/0")),
    assign (item ++ [.key "MemberId"]) (.int 0),
    assign (item ++ [.key "Name"]) (.str "Power Supply"),
    assign (item ++ [.key "Status", .key "State"]) (.str "Enabled"),
    assign (item ++ [.key "Status", .key "Health"]) (.str "OK"),
    assign (item ++ [.key "PowerSupplyType"]) (.str "DC"),
    assign (item ++ [.key "LineInputVoltageType"]) (.str "DCNeg48V"),
    assign (item ++ [.key "LineInputVoltage"]) (.int 48),
    assign (item ++ [.key "PowerCapacityWatts"]) (.int 400),
    assign (item ++ [.key "LastPowerOutputWatts"]) (.int 192),
    assign (item ++ [.key "Model"]) (.str "499253-B21"),
    assign (item ++ [.key "Manufacturer"]) (.str "Delta"),
    assign (item ++ [.key "FirmwareVersion"]) (.str "2.75"),
    assign (item ++ [.key "SerialNumber"]) (.str "1Z00103"),
    assign (item ++ [.key "PartNumber"]) (.str "1Z00103a2"),
    assign (item ++ [.key "SparePartNumber"]) .null,
    assign (item ++ [.key "InputRanges"]) (.arr []),
    assign (item ++ [.key "IndicatorLED"]) (.str "Off"),
    assign (item ++ [.key "RelatedItem", .idx 0]) Power.relatedItem]

/-- The conversion of a decimal literal `mantissa * 10^(-exp10)` of type
`double` to a parameter of type `int`: the fractional part is discarded. -/
def doubleToInt (mantissa : Int) (exp10 : Nat) : Int :=
  Int.tdiv mantissa (10 ^ exp10)

/-- The member function `Power::getPowerInfo`. The readings 3.3 and 1.5 are
passed for the `int value` parameter of `getVoltagesInfo`. -/
def Power.getPowerInfo (chassis_name : String) : Op :=
  Op.seq [
    invokeShared "getPowerControlInfo" (Power.getPowerControlInfo chassis_name),
    invokeShared "getPowerSuppliesInfo" (Power.getPowerSuppliesInfo chassis_name),
    invokeShared "getVoltagesInfo" (Power.getVoltagesInfo chassis_name 0 "VRM1" 11 12),
    invokeShared "getVoltagesInfo" (Power.getVoltagesInfo chassis_name 1 "P5V" 12 5),
    invokeShared "getVoltagesInfo"
      (Power.getVoltagesInfo chassis_name 2 "P3.3V" 13 (doubleToInt 33 1)),
    invokeShared "getVoltagesInfo"
      (Power.getVoltagesInfo chassis_name 3 "P1.5V" 14 (doubleToInt 15 1)),
    invokeShared "getVoltagesInfo"
      (Power.getVoltagesInfo chassis_name 4 "P3.3V_STBY" 15 (doubleToInt 33 1))]

/-- The handler `Power::doGet`. -/
def Power.doGet (params : List String) : Op :=
  if params.length ≠ 1 then
    Op.seq [resResult 500, resEnd]
  else
    param params 0 fun chassis_name =>
    Op.seq [
      assign [.key "@odata.id"] (.str ("/redfish/v1/Chassis/" ++ chassis_name ++ "/Power")),
      assign [.key "@odata.type"] (.str "#Power.v1_2_1.Power"),
      assign [.key "@odata.context"] (.str "/redfish/v1/$metadata#Power.Power"),
      assign [.key "Id"] (.str "Power"),
      assign [.key "Name"] (.str "Power"),
      AsyncResp.make,
      invokeShared "getPowerInfo" (Power.getPowerInfo chassis_name),
      AsyncResp.release]

/-! ## rmc_managers.hpp -/

/-- What a handler consumes of the request. The only use of `req` in the
handlers is `json_util::readJson(req, res, "ResetType", resetType)`, which is
not among the sources; the request is represented by what that call yields:
`some r` when it returns true and has stored the string `r` in `resetType`,
`none` when it returns false (whatever it has then reported on the response is
outside the handlers and is not part of the state). -/
structure Request where
  readResetType : Option String

/-- What a handler takes from its surroundings: the `systemUuid` that the
constructor of `Manager` reads from the persistent data middleware, and the
outcome of `std::strftime(.., "%FT%T%z", std::localtime(&time))` in
`Manager::getDateTime`: `none` when it returns 0, the formatted string
otherwise. -/
structure Env where
  systemUuid : String
  strftime : Option String

/-- The member function `ManagerActionsReset::doBMCGracefulRestart`, whose
body is empty. -/
def ManagerActionsReset.doBMCGracefulRestart (_req : Request) (_params : List String) : Op :=
  Op.seq []

/-- The handler `ManagerActionsReset::doPost`. -/
def ManagerActionsReset.doPost (req : Request) (params : List String) : Op :=
  match req.readResetType with
  | none => Op.seq []
  | some resetType =>
    if resetType ≠ "GracefulRestart" then
      Op.seq [
        resResult 400,
        messages.actionParameterNotSupported resetType "ResetType",
        resEnd]
    else
      invoke "doBMCGracefulRestart" (ManagerActionsReset.doBMCGracefulRestart req params)

/-- The member function `Manager::getDateTime`, as a function of the outcome
of `strftime`. `insert(end() - 2, ':')` has no defined result on a string of
fewer than two characters (`none`). -/
def Manager.getDateTime (strftime : Option String) : Option String :=
  match strftime with
  | none => some "0000-00-00T00:00:00Z00:00"
  | some dateTime =>
    let cs := dateTime.toList
    if cs.length < 2 then none
    else some (String.mk (cs.take (cs.length - 2) ++ ':' :: cs.drop (cs.length - 2)))

/-- The statement `res.jsonValue["DateTime"] = getDateTime()`, given the
outcome of the call of `getDateTime`. -/
def Manager.assignDateTime : Option String → Op
  | none, _ => none
  | some dateTime, st => assign [.key "DateTime"] (.str dateTime) st

/-- The handler `Manager::doGet`. The parameter vector is not looked at. -/
def Manager.doGet (env : Env) (_params : List String) : Op :=
  let oem := [PathElem.key "Oem"]
  let oemOpenrmc := oem ++ [PathElem.key "OpenRmc"]
  let manager_reset := [PathElem.key "Actions", PathElem.key "#Manager.Reset"]
  let serialConsole := [PathElem.key "SerialConsole"]
  let status := [PathElem.key "Status"]
  let link := [PathElem.key "Links"]
  let manageerForChassis := link ++ [PathElem.key "ManagerForChassis"]
  Op.seq [
    assign [.key "@odata.id"] (.str "/redfish/v1/Managers/rmc"),
    assign [.key "@odata.type"] (.str "#Manager.v1_3_0.Manager"),
    assign [.key "@odata.context"] (.str "/redfish/v1/$metadata#Manager.Manager"),
    assign [.key "Id"] (.str "rmc"),
    assign [.key "Name"] (.str "OpenRmc Manager"),
    assign [.key "Description"] (.str "RackScale RMC"),
    assign [.key "PowerState"] (.str "On"),
    assign [.key "ManagerType"] (.str "RMC Manager"),
    assign [.key "UUID"] (.str env.systemUuid),
    assign [.key "Model"] (.str "OpenRmc"),
    assign [.key "NetworkProtocol"] (Json.odataId "/redfish/v1/Managers/rmc/NetworkProtocol"),
    assign [.key "EthernetInterfaces"]
      (Json.odataId "/redfish/v1/Managers/rmc/EthernetInterfaces"),
    reference oem,
    reference oemOpenrmc,
    assign (oem ++ [.key "@odata.type"]) (.str "#OemManager.Oem"),
    assign (oem ++ [.key "@odata.id"]) (.str "/redfish/v1/Managers/rmc#/Oem"),
    assign (oem ++ [.key "@odata.context"]) (.str "/redfish/v1/$metadata#OemManager.Oem"),
    assign (oemOpenrmc ++ [.key "@odata.type"]) (.str "#OemManager.OpenRmc"),
    assign (oemOpenrmc ++ [.key "@odata.id"]) (.str "/redfish/v1/Managers/rmc#/Oem/OpenRmc"),
    assign (oemOpenrmc ++ [.key "@odata.context"])
      (.str "/redfish/v1/$metadata#OemManager.OpenRmc"),
    reference manager_reset,
    assign (manager_reset ++ [.key "target"])
      (.str "/redfish/v1/Managers/rmc/Actions/Manager.Reset"),
    assign (manager_reset ++ [.key "ResetType@Redfish.AllowableValues"])
      (.arr [.str "GracefulRestart"]),
    assign [.key "FirmwareVersion"] (.str "2.1.71.0"),
    Manager.assignDateTime (Manager.getDateTime env.strftime),
    reference serialConsole,
    assign (serialConsole ++ [.key "ServiceEnabled"]) (.bool true),
    assign (serialConsole ++ [.key "MaxConcurrentSessions"]) (.int 1),
    assign (serialConsole ++ [.key "ConnectTypesSupported"]) (.arr [.arr [.str "SSH"]]),
    reference status,
    assign (status ++ [.key "State"]) (.str "Enabled"),
    assign (status ++ [.key "Health"]) (.str "OK"),
    assign (status ++ [.key "HealthRollup"]) .null,
    reference link,
    assign (link ++ [.key "ManagerForServers"]) .null,
    reference manageerForChassis,
    pushBack manageerForChassis (Json.odataId "/redfish/v1/Chassis/chassis1"),
    pushBack manageerForChassis (Json.odataId "/redfish/v1/Chassis/chassis2"),
    pushBack manageerForChassis (Json.odataId "/redfish/v1/Chassis/chassis3"),
    assign (link ++ [.key "ManagerInChassis"]) .null,
    resEnd]

/-- The handler `ManagerCollection::doGet`. The parameter vector is not looked at. -/
def ManagerCollection.doGet (_params : List String) : Op :=
  Op.seq [
    assign [.key "@odata.id"] (.str "/redfish/v1/Managers"),
    assign [.key "@odata.type"] (.str "#ManagerCollection.ManagerCollection"),
    assign [.key "@odata.context"]
      (.str "/redfish/v1/$metadata#ManagerCollection.ManagerCollection"),
    assign [.key "Name"] (.str "Manager Collection"),
    assign [.key "Members@odata.count"] (.int 1),
    assign [.key "Members"] (.arr [Json.odataId "/redfish/v1/Managers/rmc"]),
    resEnd]

/-! ## rmc_systems.hpp -/

/-- The handler `SystemsCollection::doGet`. The `AsyncResp` is created first
and released when the handler returns; the count is stored under the key
spelt `Memebers@odata.count`. The parameter vector is not looked at. -/
def SystemsCollection.doGet (_params : List String) : Op :=
  let systemArrary := [PathElem.key "Members"]
  Op.seq [
    AsyncResp.make,
    assign [.key "@odata.type"] (.str "#ComputerSystemCollection.ComputerSystemCollection"),
    assign [.key "@odata.id"] (.str "/redfish/v1/Systems"),
    assign [.key "@odata.context"]
      (.str "/redfish/v1/$metadata#ComputerSystemCollection.ComputerSystemCollection"),
    assign [.key "Name"] (.str "Computer System Collection"),
    reference systemArrary,
    pushBack systemArrary (Json.odataId "/redfish/v1/Systems/system1"),
    pushBack systemArrary (Json.odataId "/redfish/v1/Systems/system2"),
    pushBack systemArrary (Json.odataId "/redfish/v1/Systems/system3"),
    assignSize [.key "Memebers@odata.count"] systemArrary,
    resEnd,
    AsyncResp.release]

/-- The handler `SystemActionsReset::doPost`, whose body is empty. -/
def SystemActionsReset.doPost (_req : Request) (_params : List String) : Op :=
  Op.seq []

/-- The handler `Systems::doGet`. -/
def Systems.doGet (params : List String) : Op :=
  if params.length ≠ 1 then
    Op.seq [messages.internalError, resEnd]
  else
    param params 0 fun name =>
    Op.seq [
      assign [.key "@odata.type"] (.str "#ComputerSystem.v1_5_1.ComputerSystem"),
      assign [.key "@odata.context"]
        (.str "/redfish/v1/$metadata#ComputerSystem.ComputerSystem"),
      assign [.key "SystemType"] (.str "Physical"),
      assign [.key "Description"] (.str "Computer System"),
      assign [.key "Boot", .key "BootSourceOverrideEnabled"] (.str "Disabled"),
      assign [.key "Boot", .key "BootSourceOverrideTarget"] (.str "None"),
      assign [.key "Boot", .key "BootSourceOverrideMode"] (.str "Legacy"),
      assign [.key "Boot", .key "BootSourceOverrideTarget@Redfish.AllowableValues"]
        (.arr [.str "None", .str "Pxe", .str "Hdd", .str "Cd", .str "BiosSetup",
               .str "UefiShell", .str "Usb"]),
      assign [.key "ProcessorSummary", .key "Count"] (.int 2),
      assign [.key "ProcessorSummary", .key "Status", .key "State"] (.str "Enabled"),
      assign [.key "MemorySummary", .key "TotalSystemMemoryGiB"] (.int 96),
      assign [.key "MemorySummary", .key "Status", .key "State"] (.str "Enabled"),
      assign [.key "@odata.id"] (.str ("/redfish/v1/Systems/" ++ name)),
      assign [.key "Processors"]
        (Json.odataId ("/redfish/v1/Systems/" ++ name ++ "/Processors")),
      assign [.key "Memory"] (Json.odataId ("/redfish/v1/Systems/" ++ name ++ "/Memory")),
      assign [.key "Actions", .key "#ComputerSystem.Reset"]
        (.obj [
          ("target",
            .str ("/redfish/v1/Systems/" ++ name ++ "/Actions/ComputerSystem.Reset")),
          ("ResetType@Redfish.AllowableValues",
            .arr [.str "On", .str "ForceOff", .str "GracefulRestart",
                  .str "GracefulShutdown"])]),
      assign [.key "LogServices"]
        (Json.odataId ("/redfish/v1/Systems/" ++ name ++ "/LogServices")),
      resEnd]

/-- The handler `Systems::doPatch`, whose body is empty. -/
def Systems.doPatch (_req : Request) (_params : List String) : Op :=
  Op.seq []

/-- The member function `ProcessorCollection::getProcessorList`. -/
def ProcessorCollection.getProcessorList (chassis_name : String) : Op :=
  let chassisArray := [PathElem.key "Members"]
  asyncSeq [
    reference chassisArray,
    assign chassisArray (Json.arr []),
    pushBack chassisArray
      (Json.odataId ("/redfish/v1/Systems/" ++ chassis_name ++ "/Processors/cpu0")),
    pushBack chassisArray
      (Json.odataId ("/redfish/v1/Systems/" ++ chassis_name ++ "/Processors/cpu1")),
    assignSize [.key "Members@odata.count"] chassisArray]

/-- The handler `ProcessorCollection::doGet`. -/
def ProcessorCollection.doGet (params : List String) : Op :=
  if params.length ≠ 1 then
    Op.seq [messages.internalError, resEnd]
  else
    param params 0 fun chassisId =>
    Op.seq [
      assign [.key "@odata.type"] (.str "#ProcessorCollection.ProcessorCollection"),
      assign [.key "@odata.id"] (.str ("/redfish/v1/Systems/" ++ chassisId ++ "/Processors")),
      assign [.key "@odata.context"]
        (.str "/redfish/v1/$metadata#ProcessorCollection.ProcessorCollection"),
      assign [.key "Name"] (.str "Processors Collection"),
      AsyncResp.make,
      invokeShared "getProcessorList" (ProcessorCollection.getProcessorList chassisId),
      AsyncResp.release]

/-- The member function `MemoryCollection::getMemoryList`. -/
def MemoryCollection.getMemoryList (chassis_name : String) : Op :=
  let chassisArray := [PathElem.key "Members"]
  asyncSeq [
    reference chassisArray,
    assign chassisArray (Json.arr []),
    pushBack chassisArray
      (Json.odataId ("/redfish/v1/Systems/" ++ chassis_name ++ "/Memory/mem0")),
    pushBack chassisArray
      (Json.odataId ("/redfish/v1/Systems/" ++ chassis_name ++ "/Memory/mem1")),
    pushBack chassisArray
      (Json.odataId ("/redfish/v1/Systems/" ++ chassis_name ++ "/Memory/mem2")),
    pushBack chassisArray
      (Json.odataId ("/redfish/v1/Systems/" ++ chassis_name ++ "/Memory/mem3")),
    assignSize [.key "Members@odata.count"] chassisArray]

/-- The handler `MemoryCollection::doGet`. -/
def MemoryCollection.doGet (params : List String) : Op :=
  if params.length ≠ 1 then
    Op.seq [messages.internalError, resEnd]
  else
    param params 0 fun chassisId =>
    Op.seq [
      assign [.key "@odata.type"] (.str "#MemoryCollection.MemoryCollection"),
      assign [.key "@odata.id"] (.str ("/redfish/v1/Systems/" ++ chassisId ++ "/Memory")),
      assign [.key "@odata.context"]
        (.str "/redfish/v1/$metadata#MemoryCollection.MemoryCollection"),
      assign [.key "Name"] (.str "Memory Collection"),
      AsyncResp.make,
      invokeShared "getMemoryList" (MemoryCollection.getMemoryList chassisId),
      AsyncResp.release]

/-- The handler `Processor::doGet`. -/
def Processor.doGet (params : List String) : Op :=
  if params.length ≠ 2 then
    Op.seq [messages.internalError, resEnd]
  else
    param params 0 fun systemId =>
    param params 1 fun processorId =>
    let status := [PathElem.key "Status"]
    Op.seq [
      assign [.key "@odata.id"]
        (.str ("/redfish/v1/Systems/" ++ systemId ++ "/Processors/" ++ processorId)),
      assign [.key "@odata.type"] (.str "#Processor.v1_3_2.Processor"),
      assign [.key "@odata.context"] (.str "/redfish/v1/$metadata#Processor.Processor"),
      assign [.key "Manufacturer"] (.str "Intel"),
      assign [.key "Model"] (.str "Intel(R) Xeon(R) Platinum 8176 CPU @ 2.10GHz"),
      assign [.key "MaxSpeedMHz"] (.int 2100),
      assign [.key "TDPWatts"] (.int 165),
      assign [.key "TotalCores"] (.int 28),
      reference status,
      assign (status ++ [.key "State"]) (.str "Enabled"),
      assign (status ++ [.key "Health"]) (.str "OK"),
      assign (status ++ [.key "HealthRollup"]) .null,
      resEnd]

/-- The serial number `Memory::doGet` stores for a memory id. -/
def Memory.serialNumber (memId : String) : String :=
  if memId = "mem0" then "390FB680"
  else if memId = "mem1" then "393BE2A3"
  else if memId = "mem2" then "390FCBBD"
  else if memId = "mem3" then "39359D7F"
  else "39359D93"

/-- The handler `Memory::doGet`. -/
def Memory.doGet (params : List String) : Op :=
  if params.length ≠ 2 then
    Op.seq [messages.internalError, resEnd]
  else
    param params 0 fun systemId =>
    param params 1 fun memId =>
    let status := [PathElem.key "Status"]
    Op.seq [
      assign [.key "@odata.id"]
        (.str ("/redfish/v1/Systems/" ++ systemId ++ "/Memory/" ++ memId)),
      assign [.key "@odata.type"] (.str "#Memory.v1_0_0.Memory"),
      assign [.key "@odata.context"] (.str "/redfish/v1/$metadata#Memory.Memory"),
      assign [.key "CapacityMiB"] (.int (16 * 1024)),
      assign [.key "Meanufacturer"] (.str "Samsung"),
      assign [.key "SerialNumber"] (.str (Memory.serialNumber memId)),
      reference status,
      assign (status ++ [.key "State"]) (.str "Enabled"),
      assign (status ++ [.key "Health"]) (.str "OK"),
      assign (status ++ [.key "HealthRollup"]) .null,
      assign [.key "AllowedSpeedsMHz"] (.int 2133),
      resEnd]

/-! ## The handlers, their routes and privileges -/

/-- The HTTP verbs of `boost::beast::http::verb` that the privilege maps use. -/
inductive Verb where
  | get
  | head
  | patch
  | put
  | delete_
  | post
  deriving DecidableEq

/-- One privilege set: the names in one inner brace of `entityPrivileges`. -/
abbrev Privileges := List String

/-- The type of `entityPrivileges`: for a verb, the alternative privilege sets. -/
abbrev OperationMap := List (Verb × List Privileges)

/-- The handler classes defined in the sources. -/
inductive Handler where
  | ChassisCollection
  | Chassis
  | Power
  | ManagerActionsReset
  | Manager
  | ManagerCollection
  | SystemsCollection
  | SystemActionsReset
  | Systems
  | ProcessorCollection
  | MemoryCollection
  | Processor
  | Memory
  deriving DecidableEq

/-- The map every constructor but that of `SystemActionsReset` stores, with
`write` the privilege of the four writing verbs. -/
def privilegesWith (write : String) : OperationMap :=
  [(Verb.get, [["Login"]]),
   (Verb.head, [["Login"]]),
   (Verb.patch, [[write]]),
   (Verb.put, [[write]]),
   (Verb.delete_, [[write]]),
   (Verb.post, [[write]])]

namespace Handler

/-- The URL that the constructor passes to `Node`. -/
def url : Handler → String
  | ChassisCollection => "/redfish/v1/Chassis/"
  | Chassis => "/redfish/v1/Chassis/<str>/"
  | Power => "/redfish/v1/Chassis/<str>/Power/"
  | ManagerActionsReset => "/redfish/v1/Managers/rmc/Actions/Manager.Reset/"
  | Manager => "/redfish/v1/Managers/rmc/"
  | ManagerCollection => "/redfish/v1/Managers/"
  | SystemsCollection => "/redfish/v1/Systems/"
  | SystemActionsReset => "/redfish/v1/Systems/<str>/Actions/ComputerSystem.Reset/"
  | Systems => "/redfish/v1/Systems/<str>/"
  | ProcessorCollection => "/redfish/v1/Systems/<str>/Processors"
  | MemoryCollection => "/redfish/v1/Systems/<str>/Memory"
  | Processor => "/redfish/v1/Systems/<str>/Processors/<str>"
  | Memory => "/redfish/v1/Systems/<str>/Memory/<str>"

/-- The number of `std::string()` arguments that the constructor passes to
`Node` after the URL: one for each `<str>` of the URL. -/
def paramCount : Handler → Nat
  | ChassisCollection => 0
  | Chassis => 1
  | Power => 1
  | ManagerActionsReset => 0
  | Manager => 0
  | ManagerCollection => 0
  | SystemsCollection => 0
  | SystemActionsReset => 1
  | Systems => 1
  | ProcessorCollection => 1
  | MemoryCollection => 1
  | Processor => 2
  | Memory => 2

/-- The `entityPrivileges` that the constructor stores. -/
def entityPrivileges : Handler → OperationMap
  | ChassisCollection => privilegesWith "ConfigureComponents"
  | Chassis => privilegesWith "ConfigureComponents"
  | Power => privilegesWith "ConfigureManager"
  | ManagerActionsReset => privilegesWith "ConfigureManager"
  | Manager => privilegesWith "ConfigureManager"
  | ManagerCollection => privilegesWith "ConfigureManager"
  | SystemsCollection => privilegesWith "ConfigureComponents"
  | SystemActionsReset => [(Verb.post, [["ConfigureComponents"]])]
  | Systems => privilegesWith "ConfigureComponents"
  | ProcessorCollection => privilegesWith "ConfigureComponents"
  | MemoryCollection => privilegesWith "ConfigureComponents"
  | Processor => privilegesWith "ConfigureComponents"
  | Memory => privilegesWith "ConfigureComponents"

/-- The verb handlers that the class overrides: `doGet`, `doPost`, `doPatch`. -/
def run (env : Env) : Handler → Verb → Option (Request → List String → Op)
  | ChassisCollection, .get => some fun _ => ChassisCollection.doGet
  | Chassis, .get => some fun _ => Chassis.doGet
  | Power, .get => some fun _ => Power.doGet
  | ManagerActionsReset, .post => some ManagerActionsReset.doPost
  | Manager, .get => some fun _ => Manager.doGet env
  | ManagerCollection, .get => some fun _ => ManagerCollection.doGet
  | SystemsCollection, .get => some fun _ => SystemsCollection.doGet
  | SystemActionsReset, .post => some SystemActionsReset.doPost
  | Systems, .get => some fun _ => Systems.doGet
  | Systems, .patch => some Systems.doPatch
  | ProcessorCollection, .get => some fun _ => ProcessorCollection.doGet
  | MemoryCollection, .get => some fun _ => MemoryCollection.doGet
  | Processor, .get => some fun _ => Processor.doGet
  | Memory, .get => some fun _ => Memory.doGet
  | _, _ => none

end Handler

/-- The nodes that `RmcRedfishService::RmcRedfishService` installs and whose
classes are defined in the sources, in the order of installation. -/
def RmcRedfishService.nodes : List Handler :=
  [.ChassisCollection, .Chassis, .Power, .ManagerActionsReset, .Manager, .ManagerCollection,
   .SystemsCollection, .SystemActionsReset, .Systems, .ProcessorCollection,
   .MemoryCollection, .Processor, .Memory]

/-! ## Path matching, the privilege gate and the registry

`node.hpp`, the privilege check and the router are not among the sources; the
definitions of this section follow the specification. -/

/-- Modelled from the spec: a segment of a route template, a literal string or
the string placeholder. -/
inductive Segment where
  | literal (s : String)
  | placeholder
  deriving DecidableEq

/-- Modelled from the spec: the normalization that strips a single trailing
slash. -/
def stripTrailingSlash (cs : List Char) : List Char :=
  if cs.getLast? = some '/' then cs.dropLast else cs

/-- Modelled from the spec: the segments of a path, split at every slash. -/
def splitSlash : List Char → List (List Char)
  | [] => [[]]
  | c :: cs =>
    if c = '/' then [] :: splitSlash cs
    else
      match splitSlash cs with
      | [] => [[c]]
      | seg :: segs => (c :: seg) :: segs

/-- Modelled from the spec: the Path Template Matcher is not among the
sources. A path is normalized by stripping a single trailing slash and is
matched segment by segment. -/
def pathSegments (path : String) : List String :=
  (splitSlash (stripTrailingSlash path.toList)).map String.mk

/-- Modelled from the spec: the Path Template Matcher is not among the
sources. A template is an ordered sequence of segments, each a literal or the
string placeholder `<str>`. -/
def parseTemplate (template : String) : List Segment :=
  (pathSegments template).map fun s => if s = "<str>" then Segment.placeholder else Segment.literal s

/-- Modelled from the spec: the Path Template Matcher is not among the
sources. A literal segment matches only an identical literal; a placeholder
segment matches any single non-empty path segment and captures its value. -/
def matchSegments : List Segment → List String → Option (List String)
  | [], [] => some []
  | Segment.literal l :: ts, s :: ss => if l = s then matchSegments ts ss else none
  | Segment.placeholder :: ts, s :: ss =>
    if s = "" then none else (matchSegments ts ss).map fun ps => s :: ps
  | _, _ => none

/-- Modelled from the spec: the Path Template Matcher is not among the
sources. The parameters captured when the path matches the template. -/
def matchTemplate (template path : String) : Option (List String) :=
  matchSegments (parseTemplate template) (pathSegments path)

/-- Modelled from the spec: the Privilege Gate is not among the sources. The
caller's granted privileges are a superset of a privilege set. -/
def isSupersetOf (caller : List String) (required : Privileges) : Bool :=
  required.all fun p => caller.contains p

/-- Modelled from the spec: the Privilege Gate is not among the sources. The
requirement a route has for a verb: its entry in the map, and for HEAD without
an entry of its own the requirement of GET. -/
def requirementFor (requirement : OperationMap) (verb : Verb) : Option (List Privileges) :=
  match requirement.lookup verb with
  | some alternatives => some alternatives
  | none => if verb = Verb.head then requirement.lookup Verb.get else none

/-- Modelled from the spec: the Privilege Gate is not among the sources.
Deny is the default for a verb without a requirement; otherwise the caller is
authorized when the granted privileges are a superset of at least one
alternative set. -/
def authorize (requirement : OperationMap) (verb : Verb) (caller : List String) : Bool :=
  match requirementFor requirement verb with
  | none => false
  | some alternatives => alternatives.any (isSupersetOf caller)

/-- Modelled from the spec: the outcomes of resolving a request. -/
inductive Dispatch where
  | Invoke (handler : Handler) (params : List String)
  | NotFound
  | MethodNotAllowed
  | Forbidden
  deriving DecidableEq

/-- Modelled from the spec: the Route Registry is not among the sources. The
first registered route whose template matches the path, with the captured
parameters. -/
def findRoute : List Handler → String → Option (Handler × List String)
  | [], _ => none
  | h :: hs, path =>
    match matchTemplate h.url path with
    | some params => some (h, params)
    | none => findRoute hs path

/-- Modelled from the spec: the Route Registry is not among the sources.
Resolution order: match the path, check that the verb is registered for the
route, authorize, and only then invoke the handler. -/
def resolve (registry : List Handler) (method : Verb) (path : String)
    (caller : List String) : Dispatch :=
  match findRoute registry path with
  | none => Dispatch.NotFound
  | some (h, params) =>
    match requirementFor h.entityPrivileges method with
    | none => Dispatch.MethodNotAllowed
    | some _ =>
      if authorize h.entityPrivileges method caller then Dispatch.Invoke h params
      else Dispatch.Forbidden

/-! ## What the statements below observe -/

/-- The number of send attempts in a log: each `res.end()`, whether called by
the handler or by the release of the last owner of the `AsyncResp`. -/
def sendAttempts (log : List Event) : Nat :=
  log.count Event.finish

/-- The events that write to the response body. -/
def Event.isBodyWrite : Event → Bool
  | Event.write _ => true
  | Event.message _ => true
  | _ => false

/-- The events that access the parameter vector. -/
def Event.isIndex : Event → Bool
  | Event.index _ => true
  | _ => false

/-- No write to the response body follows the first send attempt. -/
def quietAfterFinish : List Event → Bool
  | [] => true
  | Event.finish :: rest => rest.all fun ev => !ev.isBodyWrite
  | _ :: rest => quietAfterFinish rest

/-- The member `k` of the document is present and holds a string. -/
def Json.hasString (j : Json) (k : String) : Bool :=
  match j.get? k with
  | some (Json.str _) => true
  | _ => false

/-- The three envelope members are present, each with a string value. -/
def Json.hasEnvelope (j : Json) : Bool :=
  j.hasString "@odata.id" && j.hasString "@odata.type" && j.hasString "@odata.context"

/-- The member `Members@odata.count` is present, holds an integer, and that
integer is the number of elements of the array `Members`. -/
def Json.countMatchesMembers (j : Json) : Bool :=
  match j.get? "Members@odata.count", j.get? "Members" with
  | some (Json.int n), some (Json.arr xs) => n == xs.length
  | _, _ => false

/-- The outcome of `strftime` leaves `Manager::getDateTime` with a defined
result: a formatted string has at least two characters. -/
def Env.clockOk (env : Env) : Prop :=
  ∀ s, env.strftime = some s → 2 ≤ s.length

/-- What the statements below observe of the final state of a handler: the
status, whether the response is completed, the use count of the `AsyncResp`,
the number of send attempts, whether no body write follows the first send
attempt, whether what was sent has status 200 and the envelope members, and
the number of accesses to the parameter vector. -/
def State.observe (st : State) : Nat × Bool × Nat × Nat × Bool × Bool × Nat :=
  (st.res.result, st.res.completed, st.useCount, sendAttempts st.log,
   quietAfterFinish st.log,
   (match st.res.sent with
    | some s => s.result == 200 && s.body.hasEnvelope
    | none => false),
   st.log.countP Event.isIndex)

/-- The verbs that write: PATCH, PUT, DELETE and POST. -/
def Verb.isWrite : Verb → Bool
  | Verb.patch => true
  | Verb.put => true
  | Verb.delete_ => true
  | Verb.post => true
  | _ => false

/-- The handler serves an action: its URL has the segment `Actions`. -/
def Handler.isAction (h : Handler) : Bool :=
  (pathSegments h.url).contains "Actions"

/-- The URL of the handler lies under the given path. -/
def Handler.isUnder (h : Handler) (path : String) : Bool :=
  path.toList.isPrefixOf h.url.toList



/-- Modelled from the spec: re-serializing parameters into a template given by
its segments: each `<str>` segment takes the next parameter, in order. -/
def fillSegments : List (List Char) → List String → List (List Char)
  | [], _ => []
  | seg :: segs, params =>
    if seg = "<str>".toList then
      match params with
      | p :: ps => p.toList :: fillSegments segs ps
      | [] => seg :: fillSegments segs []
    else seg :: fillSegments segs params

/-- Modelled from the spec: the path with the given segments, joined by
slashes. -/
def joinSlash : List (List Char) → List Char
  | [] => []
  | [seg] => seg
  | seg :: seg' :: segs => seg ++ '/' :: joinSlash (seg' :: segs)

/-- Modelled from the spec: the path that results from a template when the
parameters are substituted for its `<str>` placeholders. -/
def substitute (template : String) (params : List String) : String :=
  String.mk (joinSlash (fillSegments (splitSlash template.toList) params))

/-- The URL of the handler without its trailing slash, with the parameters
substituted for the placeholders. -/
def Handler.selfLink (h : Handler) (params : List String) : String :=
  substitute (String.mk (stripTrailingSlash h.url.toList)) params

/-- Two templates can match one and the same path: they have the same number
of segments, and where both have a literal segment the literals agree. -/
def compatible : List Segment → List Segment → Bool
  | [], [] => true
  | Segment.literal a :: ts, Segment.literal b :: us => a == b && compatible ts us
  | Segment.literal _ :: ts, Segment.placeholder :: us => compatible ts us
  | Segment.placeholder :: ts, _ :: us => compatible ts us
  | _, _ => false

/-- A string has a shape: in the shape, `d` stands for a decimal digit, `s`
for a sign `+` or `-`, and every other character for itself. -/
def matchesShape : List Char → List Char → Bool
  | [], [] => true
  | p :: ps, c :: cs =>
    (if p = 'd' then c.isDigit
     else if p = 's' then c = '+' || c = '-'
     else c = p) && matchesShape ps cs
  | _, _ => false

/-- The shape of what `strftime` writes for `%FT%T%z`:
`YYYY-MM-DDTHH:MM:SS±hhmm`. -/
def strftimeShape : List Char := "dddd-dd-ddTdd:dd:ddsdddd".toList

/-- The shape of a Redfish date and time with offset:
`YYYY-MM-DDTHH:MM:SS±hh:mm`. -/
def redfishShape : List Char := "dddd-dd-ddTdd:dd:ddsdd:dd".toList

/-! ## Helper lemmas -/

/-- A run whose observation is known has a final state with that observation. -/
theorem exists_of_map_eq_some {α : Type} {o : Option State} {f : State → α} {a : α}
    (h : o.map f = some a) : ∃ st, o = some st ∧ f st = a := by
  cases o with
  | none => simp at h
  | some st => exact ⟨st, rfl, by simpa using h⟩

/-- The sibling collections store the count under `Members@odata.count`, equal
to the number of members. -/
theorem collection_count_siblings (params : List String) (c : String) :
    (ChassisCollection.doGet params State.init).map
        (fun st => st.res.jsonValue.countMatchesMembers) = some true ∧
    (ManagerCollection.doGet params State.init).map
        (fun st => st.res.jsonValue.countMatchesMembers) = some true ∧
    (ProcessorCollection.doGet [c] State.init).map
        (fun st => st.res.jsonValue.countMatchesMembers) = some true ∧
    (MemoryCollection.doGet [c] State.init).map
        (fun st => st.res.jsonValue.countMatchesMembers) = some true :=
  ⟨rfl, rfl, rfl, rfl⟩

/-- The final state of a handler that answers a wrong number of parameters
with `messages::internalError(res); res.end();`. -/
theorem internalError_end :
    Op.seq [messages.internalError, resEnd] State.init =
      some ⟨⟨500, Json.null, [Message.internalError], true,
        some ⟨500, Json.null, [Message.internalError]⟩⟩, 0,
        [Event.message Message.internalError, Event.finish]⟩ :=
  rfl

/-- What `ChassisCollection::doGet` leaves behind when called with the number of parameters its
URL has placeholders. -/
theorem ChassisCollection_doGet_observe (params : List String) :
    (ChassisCollection.doGet params State.init).map State.observe =
      some (200, true, 0, 1, true, true, 0) :=
  rfl

/-- What `Chassis::doGet` leaves behind when called with the number of parameters its
URL has placeholders. -/
theorem Chassis_doGet_observe (c : String) :
    (Chassis.doGet [c] State.init).map State.observe = some (200, true, 0, 1, true, true, 1) :=
  rfl

set_option maxRecDepth 100000 in
/-- What `Power::doGet` leaves behind when called with the number of parameters its
URL has placeholders. -/
theorem Power_doGet_observe (c : String) :
    (Power.doGet [c] State.init).map State.observe = some (200, true, 0, 1, true, true, 1) :=
  rfl

/-- What `ManagerCollection::doGet` leaves behind when called with the number of parameters its
URL has placeholders. -/
theorem ManagerCollection_doGet_observe (params : List String) :
    (ManagerCollection.doGet params State.init).map State.observe =
      some (200, true, 0, 1, true, true, 0) :=
  rfl

/-- What `SystemsCollection::doGet` leaves behind when called with the number of parameters its
URL has placeholders. -/
theorem SystemsCollection_doGet_observe (params : List String) :
    (SystemsCollection.doGet params State.init).map State.observe =
      some (200, true, 0, 2, true, true, 0) :=
  rfl

/-- What `Systems::doGet` leaves behind when called with the number of parameters its
URL has placeholders. -/
theorem Systems_doGet_observe (c : String) :
    (Systems.doGet [c] State.init).map State.observe = some (200, true, 0, 1, true, true, 1) :=
  rfl

/-- What `ProcessorCollection::doGet` leaves behind when called with the number of parameters its
URL has placeholders. -/
theorem ProcessorCollection_doGet_observe (c : String) :
    (ProcessorCollection.doGet [c] State.init).map State.observe =
      some (200, true, 0, 1, true, true, 1) :=
  rfl

/-- What `MemoryCollection::doGet` leaves behind when called with the number of parameters its
URL has placeholders. -/
theorem MemoryCollection_doGet_observe (c : String) :
    (MemoryCollection.doGet [c] State.init).map State.observe =
      some (200, true, 0, 1, true, true, 1) :=
  rfl

/-- What `Processor::doGet` leaves behind when called with the number of parameters its
URL has placeholders. -/
theorem Processor_doGet_observe (c d : String) :
    (Processor.doGet [c, d] State.init).map State.observe =
      some (200, true, 0, 1, true, true, 2) :=
  rfl

/-- What `Memory::doGet` leaves behind when called with the number of parameters its
URL has placeholders. -/
theorem Memory_doGet_observe (c d : String) :
    (Memory.doGet [c, d] State.init).map State.observe =
      some (200, true, 0, 1, true, true, 2) :=
  rfl

/-- The result of `Manager::getDateTime` when the clock is in order. -/
theorem Manager_getDateTime_isSome (env : Env) (hclock : env.clockOk) :
    ∃ d, Manager.getDateTime env.strftime = some d := by
  cases hs : env.strftime with
  | none => exact ⟨_, rfl⟩
  | some s =>
    have h2 : ¬ s.toList.length < 2 := Nat.not_lt.mpr (hclock s hs)
    refine ⟨String.mk (s.toList.take (s.toList.length - 2) ++
      ':' :: s.toList.drop (s.toList.length - 2)), ?_⟩
    show (if s.toList.length < 2 then none else some _) = _
    rw [if_neg h2]

/-- What `Manager::doGet` leaves behind when called with the number of parameters its
URL has placeholders. -/
theorem Manager_doGet_observe (env : Env) (params : List String) (hclock : env.clockOk) :
    (Manager.doGet env params State.init).map State.observe =
      some (200, true, 0, 1, true, true, 0) := by
  obtain ⟨d, hd⟩ := Manager_getDateTime_isSome env hclock
  unfold Manager.doGet
  rw [hd]
  rfl

/-- Reading an observation: the run has a final state with these properties. -/
theorem facts_of_observe {o : Option State} {r n k : Nat} {b e : Bool}
    (h : o.map State.observe = some (r, b, 0, n, true, e, k)) :
    ∃ st, o = some st ∧ st.res.result = r ∧ st.res.completed = b ∧ st.useCount = 0 ∧
      sendAttempts st.log = n ∧ quietAfterFinish st.log = true ∧
      (match st.res.sent with
       | some s => s.result == 200 && s.body.hasEnvelope
       | none => false) = e := by
  obtain ⟨st, hst, hobs⟩ := exists_of_map_eq_some h
  simp only [State.observe, Prod.mk.injEq] at hobs
  exact ⟨st, hst, hobs.1, hobs.2.1, hobs.2.2.1, hobs.2.2.2.1, hobs.2.2.2.2.1, hobs.2.2.2.2.2.1⟩

/-- A member that holds a string. -/
theorem Json_hasString_iff (j : Json) (k : String) :
    j.hasString k = true ↔ ∃ s, j.get? k = some (Json.str s) := by
  unfold Json.hasString
  split
  · next s hs => simp [hs]
  · next hne =>
    constructor
    · intro hf
      cases hf
    · rintro ⟨s, hs⟩
      exact absurd hs (hne s)

/-- What `Chassis::doGet` leaves behind when called with another number of
parameters than its URL has placeholders. -/
theorem Chassis_doGet_wrong (params : List String) (hlen : params.length ≠ 1) :
    (Chassis.doGet params State.init).map State.observe =
      some (500, true, 0, 1, true, false, 0) := by
  unfold Chassis.doGet
  rw [if_pos hlen]
  rfl

/-- What `Power::doGet` leaves behind when called with another number of
parameters than its URL has placeholders. -/
theorem Power_doGet_wrong (params : List String) (hlen : params.length ≠ 1) :
    (Power.doGet params State.init).map State.observe =
      some (500, true, 0, 1, true, false, 0) := by
  unfold Power.doGet
  rw [if_pos hlen]
  rfl

/-- What `Systems::doGet` leaves behind when called with another number of
parameters than its URL has placeholders. -/
theorem Systems_doGet_wrong (params : List String) (hlen : params.length ≠ 1) :
    (Systems.doGet params State.init).map State.observe =
      some (500, true, 0, 1, true, false, 0) := by
  unfold Systems.doGet
  rw [if_pos hlen]
  rfl

/-- What `ProcessorCollection::doGet` leaves behind when called with another number of
parameters than its URL has placeholders. -/
theorem ProcessorCollection_doGet_wrong (params : List String) (hlen : params.length ≠ 1) :
    (ProcessorCollection.doGet params State.init).map State.observe =
      some (500, true, 0, 1, true, false, 0) := by
  unfold ProcessorCollection.doGet
  rw [if_pos hlen]
  rfl

/-- What `MemoryCollection::doGet` leaves behind when called with another number of
parameters than its URL has placeholders. -/
theorem MemoryCollection_doGet_wrong (params : List String) (hlen : params.length ≠ 1) :
    (MemoryCollection.doGet params State.init).map State.observe =
      some (500, true, 0, 1, true, false, 0) := by
  unfold MemoryCollection.doGet
  rw [if_pos hlen]
  rfl

/-- What `Processor::doGet` leaves behind when called with another number of
parameters than its URL has placeholders. -/
theorem Processor_doGet_wrong (params : List String) (hlen : params.length ≠ 2) :
    (Processor.doGet params State.init).map State.observe =
      some (500, true, 0, 1, true, false, 0) := by
  unfold Processor.doGet
  rw [if_pos hlen]
  rfl

/-- What `Memory::doGet` leaves behind when called with another number of
parameters than its URL has placeholders. -/
theorem Memory_doGet_wrong (params : List String) (hlen : params.length ≠ 2) :
    (Memory.doGet params State.init).map State.observe =
      some (500, true, 0, 1, true, false, 0) := by
  unfold Memory.doGet
  rw [if_pos hlen]
  rfl

/-- What `ManagerActionsReset::doPost` leaves behind, for every request. -/
theorem ManagerActionsReset_doPost_observe (req : Request) (params : List String) :
    ∃ r b n, (ManagerActionsReset.doPost req params State.init).map State.observe =
      some (r, b, 0, n, true, false, 0) ∧ n ≤ 1 := by
  obtain ⟨rt⟩ := req
  cases rt with
  | none => exact ⟨_, _, _, rfl, by decide⟩
  | some r =>
    by_cases h : r = "GracefulRestart"
    · subst h
      exact ⟨_, _, _, rfl, by decide⟩
    · refine ⟨400, true, 1, ?_, by decide⟩
      show (ManagerActionsReset.doPost ⟨some r⟩ params State.init).map State.observe = _
      unfold ManagerActionsReset.doPost
      simp only [ne_eq, h, not_false_eq_true, if_true]
      rfl

/-- Every verb handler returns, with no `AsyncResp` left alive, at most one
send attempt (two in `SystemsCollection::doGet`) and no body write after the
first send attempt; every GET handler completes the response. -/
theorem handler_outcome (env : Env) (h : Handler) (v : Verb)
    (f : Request → List String → Op) (req : Request) (params : List String)
    (hrun : h.run env v = some f) (hclock : env.clockOk) :
    ∃ st, f req params State.init = some st ∧ st.useCount = 0 ∧
      quietAfterFinish st.log = true ∧
      sendAttempts st.log ≤ (if h = Handler.SystemsCollection then 2 else 1) ∧
      (v = Verb.get → st.res.completed = true) := by
  have key : ∀ (o : Option State) (r n k : Nat) (b e : Bool),
      o.map State.observe = some (r, b, 0, n, true, e, k) →
      n ≤ (if h = Handler.SystemsCollection then 2 else 1) → (v = Verb.get → b = true) →
      ∃ st, o = some st ∧ st.useCount = 0 ∧ quietAfterFinish st.log = true ∧
        sendAttempts st.log ≤ (if h = Handler.SystemsCollection then 2 else 1) ∧
        (v = Verb.get → st.res.completed = true) := by
    intro o r n k b e ho hn hb
    obtain ⟨st, hst, _, hc, hu, ha, hq, _⟩ := facts_of_observe ho
    exact ⟨st, hst, hu, hq, ha ▸ hn, fun hv => hc.trans (hb hv)⟩
  cases h <;> cases v <;> simp [Handler.run] at hrun <;> subst hrun
  case ChassisCollection.get =>
    exact key _ _ _ _ _ _ (ChassisCollection_doGet_observe params) (by decide) (fun _ => rfl)
  case Chassis.get =>
    by_cases hlen : params.length = 1
    · obtain ⟨c, rfl⟩ := List.length_eq_one.mp hlen
      exact key _ _ _ _ _ _ (Chassis_doGet_observe c) (by decide) (fun _ => rfl)
    · exact key _ _ _ _ _ _ (Chassis_doGet_wrong params hlen) (by decide) (fun _ => rfl)
  case Power.get =>
    by_cases hlen : params.length = 1
    · obtain ⟨c, rfl⟩ := List.length_eq_one.mp hlen
      exact key _ _ _ _ _ _ (Power_doGet_observe c) (by decide) (fun _ => rfl)
    · exact key _ _ _ _ _ _ (Power_doGet_wrong params hlen) (by decide) (fun _ => rfl)
  case ManagerActionsReset.post =>
    obtain ⟨r, b, n, ho, hn⟩ := ManagerActionsReset_doPost_observe req params
    exact key _ _ _ _ _ _ ho (by simpa using hn) (fun hv => by cases hv)
  case Manager.get =>
    exact key _ _ _ _ _ _ (Manager_doGet_observe env params hclock) (by decide) (fun _ => rfl)
  case ManagerCollection.get =>
    exact key _ _ _ _ _ _ (ManagerCollection_doGet_observe params) (by decide) (fun _ => rfl)
  case SystemsCollection.get =>
    exact key _ _ _ _ _ _ (SystemsCollection_doGet_observe params) (by decide) (fun _ => rfl)
  case SystemActionsReset.post =>
    exact key _ 200 0 0 false false (show (SystemActionsReset.doPost req params State.init).map
      State.observe = _ from rfl) (by decide) (fun hv => by cases hv)
  case Systems.get =>
    by_cases hlen : params.length = 1
    · obtain ⟨c, rfl⟩ := List.length_eq_one.mp hlen
      exact key _ _ _ _ _ _ (Systems_doGet_observe c) (by decide) (fun _ => rfl)
    · exact key _ _ _ _ _ _ (Systems_doGet_wrong params hlen) (by decide) (fun _ => rfl)
  case Systems.patch =>
    exact key _ 200 0 0 false false (show (Systems.doPatch req params State.init).map
      State.observe = _ from rfl) (by decide) (fun hv => by cases hv)
  case ProcessorCollection.get =>
    by_cases hlen : params.length = 1
    · obtain ⟨c, rfl⟩ := List.length_eq_one.mp hlen
      exact key _ _ _ _ _ _ (ProcessorCollection_doGet_observe c) (by decide) (fun _ => rfl)
    · exact key _ _ _ _ _ _ (ProcessorCollection_doGet_wrong params hlen) (by decide)
        (fun _ => rfl)
  case MemoryCollection.get =>
    by_cases hlen : params.length = 1
    · obtain ⟨c, rfl⟩ := List.length_eq_one.mp hlen
      exact key _ _ _ _ _ _ (MemoryCollection_doGet_observe c) (by decide) (fun _ => rfl)
    · exact key _ _ _ _ _ _ (MemoryCollection_doGet_wrong params hlen) (by decide)
        (fun _ => rfl)
  case Processor.get =>
    by_cases hlen : params.length = 2
    · obtain ⟨c, d, rfl⟩ := List.length_eq_two.mp hlen
      exact key _ _ _ _ _ _ (Processor_doGet_observe c d) (by decide) (fun _ => rfl)
    · exact key _ _ _ _ _ _ (Processor_doGet_wrong params hlen) (by decide) (fun _ => rfl)
  case Memory.get =>
    by_cases hlen : params.length = 2
    · obtain ⟨c, d, rfl⟩ := List.length_eq_two.mp hlen
      exact key _ _ _ _ _ _ (Memory_doGet_observe c d) (by decide) (fun _ => rfl)
    · exact key _ _ _ _ _ _ (Memory_doGet_wrong params hlen) (by decide) (fun _ => rfl)
set_option maxRecDepth 100000 in
theorem Power_doGet_log (c : String) :
    (Power.doGet [c] State.init).map (fun st =>
      (st.log.drop (st.log.length - 2), sendAttempts st.log,
       st.log.count (Event.ret "getPowerControlInfo"),
       st.log.count (Event.ret "getPowerSuppliesInfo"),
       st.log.count (Event.ret "getVoltagesInfo"),
       st.log.count (Event.ret "getPowerInfo"))) =
      some ([Event.ret "getPowerInfo", Event.finish], 1, 1, 1, 5, 1) :=
  rfl

set_option maxRecDepth 100000 in
/-- What `Power::doGet` sends is its final status and body. -/
theorem Power_doGet_sent (c : String) :
    (Power.doGet [c] State.init).map (fun st => st.res.sent) =
      (Power.doGet [c] State.init).map (fun st => some ⟨200, st.res.jsonValue, []⟩) :=
  rfl

set_option maxRecDepth 100000 in
/-- The sizes of the arrays and entries that `Power::doGet` builds. -/
theorem Power_doGet_sizes (c : String) :
    (Power.doGet [c] State.init).map (fun st =>
      ((st.res.jsonValue.atPath? [.key "PowerControl"]).map Json.size,
       (st.res.jsonValue.atPath? [.key "PowerSupplies"]).map Json.size,
       (st.res.jsonValue.atPath? [.key "Voltages"]).map Json.size,
       (st.res.jsonValue.atPath? [.key "PowerControl", .idx 0]).map Json.size,
       (st.res.jsonValue.atPath? [.key "PowerSupplies", .idx 0]).map Json.size,
       (List.range 5).map fun i =>
         (st.res.jsonValue.atPath? [.key "Voltages", .idx i]).map Json.size)) =
      some (some 1, some 1, some 5, some 12, some 18,
        [some 16, some 16, some 16, some 16, some 16]) :=
  rfl
/-! ## Claims -/

/-- C1: the collection handlers are to store the number of members under the
key `Members@odata.count`. `SystemsCollection::doGet` does not: for every
parameter vector its response has three members, no field
`Members@odata.count`, and the count 3 under the key `Memebers@odata.count`. -/
theorem SystemsCollection_doGet_count_key (params : List String) :
    (SystemsCollection.doGet params State.init).map (fun st =>
      (st.res.jsonValue.countMatchesMembers,
       (st.res.jsonValue.get? "Members@odata.count").isNone,
       (st.res.jsonValue.get? "Memebers@odata.count").bind Json.int?,
       (st.res.jsonValue.get? "Members").map Json.size)) =
      some (false, true, some 3, some 3) :=
  rfl

/-- C2: `ManagerActionsReset::doPost` on a request that yields the string `r`
for `ResetType` returns; it sets status 400, reports
`actionParameterNotSupported` for the value `r` and the parameter `ResetType`,
finalizes the response and does not call `doBMCGracefulRestart` exactly when
`r` is not `GracefulRestart`; it sets no 400 and calls `doBMCGracefulRestart`
exactly when `r` is `GracefulRestart`. So `ForceOff` gives 400 and
`GracefulRestart` proceeds to the restart routine. -/
theorem ManagerActionsReset_doPost_resetType (params : List String) (r : String) :
    (∃ st, ManagerActionsReset.doPost ⟨some r⟩ params State.init = some st ∧
      ((st.res.result = 400 ∧ Event.status 400 ∈ st.log ∧
          st.res.error = [Message.actionParameterNotSupported r "ResetType"] ∧
          st.res.completed = true ∧ sendAttempts st.log = 1 ∧
          Event.call "doBMCGracefulRestart" ∉ st.log) ↔ r ≠ "GracefulRestart") ∧
      ((st.res.result ≠ 400 ∧ Event.status 400 ∉ st.log ∧
          Event.call "doBMCGracefulRestart" ∈ st.log) ↔ r = "GracefulRestart")) ∧
    (ManagerActionsReset.doPost ⟨some "ForceOff"⟩ params State.init).map
        (fun st => (st.res.result, st.res.error, st.res.completed, st.log)) =
      some (400, [Message.actionParameterNotSupported "ForceOff" "ResetType"], true,
        [Event.status 400,
         Event.message (Message.actionParameterNotSupported "ForceOff" "ResetType"),
         Event.finish]) ∧
    (ManagerActionsReset.doPost ⟨some "GracefulRestart"⟩ params State.init).map
        (fun st => (st.res.result, st.res.error, st.res.completed, st.log)) =
      some (200, [], false,
        [Event.call "doBMCGracefulRestart", Event.ret "doBMCGracefulRestart"]) := by
  refine ⟨?_, rfl, rfl⟩
  by_cases h : r = "GracefulRestart"
  · subst h
    exact ⟨_, rfl, by decide, by decide⟩
  · refine ⟨⟨⟨400, Json.null, [Message.actionParameterNotSupported r "ResetType"], true,
      some ⟨400, Json.null, [Message.actionParameterNotSupported r "ResetType"]⟩⟩, 0,
      [Event.status 400, Event.message (Message.actionParameterNotSupported r "ResetType"),
        Event.finish]⟩, ?_, ?_, ?_⟩
    · simp [ManagerActionsReset.doPost, h, Op.seq, resResult, messages.actionParameterNotSupported,
        reportMessage, resEnd, State.init]
    · simp [h, sendAttempts]
    · simp [h]

/-- C3: `SystemActionsReset::doPost` is to reject a `ResetType` outside the
values that `Systems::doGet` advertises. It does not: `Systems::doGet`
advertises On, ForceOff, GracefulRestart and GracefulShutdown, and for every
request, `ForceOn` included, and every parameter vector `doPost` returns with
the response as it was: status 200, no error, not finalized. -/
theorem SystemActionsReset_doPost_accepts_everything (params : List String) (req : Request)
    (name : String) :
    (Systems.doGet [name] State.init).bind (fun st => (st.res.jsonValue.atPath?
        [.key "Actions", .key "#ComputerSystem.Reset",
         .key "ResetType@Redfish.AllowableValues"]).bind Json.arr?) =
      some [.str "On", .str "ForceOff", .str "GracefulRestart", .str "GracefulShutdown"] ∧
    (SystemActionsReset.doPost ⟨some "ForceOn"⟩ params State.init).map
        (fun st => (st.res.result, st.res.error, st.res.completed, st.log)) =
      some (200, [], false, []) ∧
    SystemActionsReset.doPost req params State.init = some State.init :=
  ⟨rfl, rfl, rfl⟩

/-- C4: a handler is to make at most one send attempt. `SystemsCollection::doGet`
makes two for every parameter vector: its explicit `res.end()`, and the release
of the `AsyncResp` it created when it returns. -/
theorem SystemsCollection_doGet_two_send_attempts (params : List String) :
    (SystemsCollection.doGet params State.init).map
        (fun st => (sendAttempts st.log, st.log.drop (st.log.length - 2), st.useCount)) =
      some (2, [Event.finish, Event.finish], 0) :=
  rfl

/-- C5: a verb handler is to finalize the response. Three do not: after
`ManagerActionsReset::doPost` with `ResetType` = `GracefulRestart`,
`SystemActionsReset::doPost` and `Systems::doPatch` have returned, for every
request and parameter vector, no `AsyncResp` is alive, no send attempt was
made and the response is not completed. -/
theorem reset_and_patch_handlers_leave_response_unsent (params : List String) (req : Request) :
    (ManagerActionsReset.doPost ⟨some "GracefulRestart"⟩ params State.init).map
        (fun st => (st.res.completed, sendAttempts st.log, st.useCount)) = some (false, 0, 0) ∧
    (SystemActionsReset.doPost req params State.init).map
        (fun st => (st.res.completed, sendAttempts st.log, st.useCount)) = some (false, 0, 0) ∧
    (Systems.doPatch req params State.init).map
        (fun st => (st.res.completed, sendAttempts st.log, st.useCount)) = some (false, 0, 0) :=
  ⟨rfl, rfl, rfl⟩
/-- C6: every verb handler returns without a write to the response body after
the first send attempt. In particular `Power::doGet`, for every chassis name,
makes its only send attempt as its last step, right after `getPowerInfo` has
returned and after all seven sub-writers have returned; what is sent is the
final body, with one entry in `PowerControl` (12 members), one in
`PowerSupplies` (18 members) and five in `Voltages` (16 members each). -/
theorem no_write_after_send (env : Env) (h : Handler) (v : Verb)
    (f : Request → List String → Op) (req : Request) (params : List String) (c : String)
    (hrun : h.run env v = some f) (hclock : env.clockOk) :
    (∃ st, f req params State.init = some st ∧ quietAfterFinish st.log = true) ∧
    (∃ st body, Power.doGet [c] State.init = some st ∧
      st.log.drop (st.log.length - 2) = [Event.ret "getPowerInfo", Event.finish] ∧
      sendAttempts st.log = 1 ∧
      st.log.count (Event.ret "getPowerControlInfo") = 1 ∧
      st.log.count (Event.ret "getPowerSuppliesInfo") = 1 ∧
      st.log.count (Event.ret "getVoltagesInfo") = 5 ∧
      st.res.sent = some ⟨200, body, []⟩ ∧ st.res.jsonValue = body ∧
      (body.atPath? [.key "PowerControl"]).map Json.size = some 1 ∧
      (body.atPath? [.key "PowerSupplies"]).map Json.size = some 1 ∧
      (body.atPath? [.key "Voltages"]).map Json.size = some 5 ∧
      (body.atPath? [.key "PowerControl", .idx 0]).map Json.size = some 12 ∧
      (body.atPath? [.key "PowerSupplies", .idx 0]).map Json.size = some 18 ∧
      ∀ i, i < 5 → (body.atPath? [.key "Voltages", .idx i]).map Json.size = some 16) := by
  constructor
  · obtain ⟨st, hst, _, hq, _⟩ := handler_outcome env h v f req params hrun hclock
    exact ⟨st, hst, hq⟩
  · obtain ⟨st, hst, hlog⟩ := exists_of_map_eq_some (Power_doGet_log c)
    have hsent := Power_doGet_sent c
    have hsize := Power_doGet_sizes c
    rw [hst] at hsent hsize
    simp only [Option.map_some', Option.some.injEq, Prod.mk.injEq] at hsent hsize hlog
    obtain ⟨h1, h2, h3, h4, h5, h6⟩ := hsize
    refine ⟨st, st.res.jsonValue, hst, hlog.1, hlog.2.1, hlog.2.2.1, hlog.2.2.2.1,
      hlog.2.2.2.2.1, hsent, rfl, h1, h2, h3, h4, h5, ?_⟩
    intro i hi
    have hmem : (st.res.jsonValue.atPath? [.key "Voltages", .idx i]).map Json.size ∈
        (List.range 5).map fun i =>
          (st.res.jsonValue.atPath? [.key "Voltages", .idx i]).map Json.size :=
      List.mem_map.mpr ⟨i, List.mem_range.mpr hi, rfl⟩
    rw [h6] at hmem
    simpa using hmem

/-- Witness for C6: `Chassis::doGet` on one parameter, `Power::doGet` on
`chassis1`. -/
theorem no_write_after_send_witness :
    (∃ st, Chassis.doGet ["chassis1"] State.init = some st ∧
      quietAfterFinish st.log = true) ∧
    (∃ st body, Power.doGet ["chassis1"] State.init = some st ∧
      st.log.drop (st.log.length - 2) = [Event.ret "getPowerInfo", Event.finish] ∧
      sendAttempts st.log = 1 ∧
      st.log.count (Event.ret "getPowerControlInfo") = 1 ∧
      st.log.count (Event.ret "getPowerSuppliesInfo") = 1 ∧
      st.log.count (Event.ret "getVoltagesInfo") = 5 ∧
      st.res.sent = some ⟨200, body, []⟩ ∧ st.res.jsonValue = body ∧
      (body.atPath? [.key "PowerControl"]).map Json.size = some 1 ∧
      (body.atPath? [.key "PowerSupplies"]).map Json.size = some 1 ∧
      (body.atPath? [.key "Voltages"]).map Json.size = some 5 ∧
      (body.atPath? [.key "PowerControl", .idx 0]).map Json.size = some 12 ∧
      (body.atPath? [.key "PowerSupplies", .idx 0]).map Json.size = some 18 ∧
      ∀ i, i < 5 → (body.atPath? [.key "Voltages", .idx i]).map Json.size = some 16) :=
  no_write_after_send ⟨"uuid", none⟩ Handler.Chassis Verb.get (fun _ => Chassis.doGet) ⟨none⟩
    ["chassis1"] "chassis1" rfl (by intro s hs; cases hs)

/-- C7: a GET handler whose URL has k >= 1 placeholders, called with a
parameter vector of another length, returns with status 500, the response
finalized by exactly one send attempt, an empty body (no store into
`res.jsonValue` at all, neither before nor after sending) and without any
access `params[i]`. -/
theorem doGet_wrong_arity (env : Env) (h : Handler) (f : Request → List String → Op)
    (req : Request) (params : List String)
    (hrun : h.run env Verb.get = some f) (hk : 1 ≤ h.paramCount)
    (hlen : params.length ≠ h.paramCount) :
    ∃ st, f req params State.init = some st ∧
      st.res.result = 500 ∧ st.res.completed = true ∧ sendAttempts st.log = 1 ∧
      st.res.jsonValue = Json.null ∧
      (∃ e, st.res.sent = some ⟨500, Json.null, e⟩) ∧
      (∀ path, Event.write path ∉ st.log) ∧
      (∀ i, Event.index i ∉ st.log) := by
  cases h <;> simp [Handler.run] at hrun <;> simp [Handler.paramCount] at hk hlen <;> subst hrun
  case Chassis =>
    refine ⟨_, show Chassis.doGet params State.init = _ by
      unfold Chassis.doGet; rw [if_pos hlen]; exact internalError_end, ?_⟩
    simp [sendAttempts]
  case Power =>
    refine ⟨⟨⟨500, Json.null, [], true, some ⟨500, Json.null, []⟩⟩, 0,
      [Event.status 500, Event.finish]⟩, show Power.doGet params State.init = _ by
      unfold Power.doGet; rw [if_pos hlen]; rfl, ?_⟩
    simp [sendAttempts]
  case Systems =>
    refine ⟨_, show Systems.doGet params State.init = _ by
      unfold Systems.doGet; rw [if_pos hlen]; exact internalError_end, ?_⟩
    simp [sendAttempts]
  case ProcessorCollection =>
    refine ⟨_, show ProcessorCollection.doGet params State.init = _ by
      unfold ProcessorCollection.doGet; rw [if_pos hlen]; exact internalError_end, ?_⟩
    simp [sendAttempts]
  case MemoryCollection =>
    refine ⟨_, show MemoryCollection.doGet params State.init = _ by
      unfold MemoryCollection.doGet; rw [if_pos hlen]; exact internalError_end, ?_⟩
    simp [sendAttempts]
  case Processor =>
    refine ⟨_, show Processor.doGet params State.init = _ by
      unfold Processor.doGet; rw [if_pos hlen]; exact internalError_end, ?_⟩
    simp [sendAttempts]
  case Memory =>
    refine ⟨_, show Memory.doGet params State.init = _ by
      unfold Memory.doGet; rw [if_pos hlen]; exact internalError_end, ?_⟩
    simp [sendAttempts]

/-- Witness for C7: `Processor::doGet` called with one parameter. -/
theorem doGet_wrong_arity_witness :
    ∃ st, Processor.doGet ["system1"] State.init = some st ∧
      st.res.result = 500 ∧ st.res.completed = true ∧ sendAttempts st.log = 1 ∧
      st.res.jsonValue = Json.null ∧
      (∃ e, st.res.sent = some ⟨500, Json.null, e⟩) ∧
      (∀ path, Event.write path ∉ st.log) ∧
      (∀ i, Event.index i ∉ st.log) :=
  doGet_wrong_arity ⟨"", none⟩ Handler.Processor (fun _ => Processor.doGet) ⟨none⟩ ["system1"]
    rfl (by decide) (by decide)

/-- C8: every GET handler, called with as many parameters as its URL has
placeholders, returns having sent status 200 and a body whose members
`@odata.id`, `@odata.type` and `@odata.context` are present, each holding a
string. -/
theorem doGet_envelope (env : Env) (h : Handler) (f : Request → List String → Op)
    (req : Request) (params : List String)
    (hrun : h.run env Verb.get = some f) (hclock : env.clockOk)
    (hlen : params.length = h.paramCount) :
    ∃ st s, f req params State.init = some st ∧ st.res.sent = some s ∧ s.result = 200 ∧
      (∃ id, s.body.get? "@odata.id" = some (Json.str id)) ∧
      (∃ ty, s.body.get? "@odata.type" = some (Json.str ty)) ∧
      (∃ ctx, s.body.get? "@odata.context" = some (Json.str ctx)) := by
  have key : ∀ (o : Option State) (r n k : Nat) (b : Bool),
      o.map State.observe = some (r, b, 0, n, true, true, k) →
      ∃ st s, o = some st ∧ st.res.sent = some s ∧ s.result = 200 ∧
        (∃ id, s.body.get? "@odata.id" = some (Json.str id)) ∧
        (∃ ty, s.body.get? "@odata.type" = some (Json.str ty)) ∧
        (∃ ctx, s.body.get? "@odata.context" = some (Json.str ctx)) := by
    intro o r n k b ho
    obtain ⟨st, hst, _, _, _, _, _, he⟩ := facts_of_observe ho
    cases hs : st.res.sent with
    | none => simp [hs] at he
    | some s =>
      simp only [hs, Json.hasEnvelope, Bool.and_eq_true, beq_iff_eq, Json_hasString_iff] at he
      exact ⟨st, s, hst, hs, he.1, he.2.1.1, he.2.1.2, he.2.2⟩
  cases h <;> simp [Handler.run] at hrun <;> subst hrun <;>
    simp only [Handler.paramCount] at hlen
  case ChassisCollection => exact key _ _ _ _ _ (ChassisCollection_doGet_observe params)
  case Chassis =>
    obtain ⟨c, rfl⟩ := List.length_eq_one.mp hlen
    exact key _ _ _ _ _ (Chassis_doGet_observe c)
  case Power =>
    obtain ⟨c, rfl⟩ := List.length_eq_one.mp hlen
    exact key _ _ _ _ _ (Power_doGet_observe c)
  case Manager => exact key _ _ _ _ _ (Manager_doGet_observe env params hclock)
  case ManagerCollection => exact key _ _ _ _ _ (ManagerCollection_doGet_observe params)
  case SystemsCollection => exact key _ _ _ _ _ (SystemsCollection_doGet_observe params)
  case Systems =>
    obtain ⟨c, rfl⟩ := List.length_eq_one.mp hlen
    exact key _ _ _ _ _ (Systems_doGet_observe c)
  case ProcessorCollection =>
    obtain ⟨c, rfl⟩ := List.length_eq_one.mp hlen
    exact key _ _ _ _ _ (ProcessorCollection_doGet_observe c)
  case MemoryCollection =>
    obtain ⟨c, rfl⟩ := List.length_eq_one.mp hlen
    exact key _ _ _ _ _ (MemoryCollection_doGet_observe c)
  case Processor =>
    obtain ⟨c, d, rfl⟩ := List.length_eq_two.mp hlen
    exact key _ _ _ _ _ (Processor_doGet_observe c d)
  case Memory =>
    obtain ⟨c, d, rfl⟩ := List.length_eq_two.mp hlen
    exact key _ _ _ _ _ (Memory_doGet_observe c d)

/-- Witness for C8: `Manager::doGet` with a formatted date and no parameter. -/
theorem doGet_envelope_witness :
    ∃ st s, Manager.doGet ⟨"uuid", some "2018-05-09T12:00:00+0000"⟩ [] State.init = some st ∧
      st.res.sent = some s ∧ s.result = 200 ∧
      (∃ id, s.body.get? "@odata.id" = some (Json.str id)) ∧
      (∃ ty, s.body.get? "@odata.type" = some (Json.str ty)) ∧
      (∃ ctx, s.body.get? "@odata.context" = some (Json.str ctx)) :=
  doGet_envelope ⟨"uuid", some "2018-05-09T12:00:00+0000"⟩ Handler.Manager
    (fun _ => Manager.doGet ⟨"uuid", some "2018-05-09T12:00:00+0000"⟩) ⟨none⟩ [] rfl
    (by
      intro s hs
      cases hs
      decide)
    rfl

/-- The route that the path `/redfish/v1/Chassis/chassis2/` resolves to among
the installed nodes. -/
theorem findRoute_chassis2 :
    findRoute RmcRedfishService.nodes "/redfish/v1/Chassis/chassis2/" =
      some (Handler.Chassis, ["chassis2"]) := by
  decide

/-- C9: under the OR-of-ANDs rule, GET on `/redfish/v1/Chassis/<str>/` is
authorized exactly for the callers that hold `Login`. The request
`GET /redfish/v1/Chassis/chassis2/` resolves to the invocation of the chassis
handler with the parameters `["chassis2"]` for such a caller, the caller
`{Login}` included, and to `Forbidden` for every other caller, the caller
without privileges included. -/
theorem chassis_get_requires_login (caller : List String) :
    (authorize Handler.Chassis.entityPrivileges Verb.get caller = true ↔ "Login" ∈ caller) ∧
    resolve RmcRedfishService.nodes Verb.get "/redfish/v1/Chassis/chassis2/" caller =
      (if "Login" ∈ caller then Dispatch.Invoke Handler.Chassis ["chassis2"]
       else Dispatch.Forbidden) ∧
    resolve RmcRedfishService.nodes Verb.get "/redfish/v1/Chassis/chassis2/" ["Login"] =
      Dispatch.Invoke Handler.Chassis ["chassis2"] ∧
    resolve RmcRedfishService.nodes Verb.get "/redfish/v1/Chassis/chassis2/" [] =
      Dispatch.Forbidden := by
  have hauth : authorize Handler.Chassis.entityPrivileges Verb.get caller = true ↔
      "Login" ∈ caller := by
    simp [authorize, requirementFor, Handler.entityPrivileges, privilegesWith, List.lookup,
      isSupersetOf]
  refine ⟨hauth, ?_, by decide, by decide⟩
  have hreq : requirementFor Handler.Chassis.entityPrivileges Verb.get = some [["Login"]] := by
    decide
  unfold resolve
  rw [findRoute_chassis2]
  simp only [hreq]
  by_cases hl : "Login" ∈ caller
  · rw [if_pos (hauth.mpr hl), if_pos hl]
  · rw [if_neg (fun ha => hl (hauth.mp ha)), if_neg hl]

/-- C10: for every handler and every verb without an entry in the
`entityPrivileges` of the handler, authorization denies whatever the caller
holds; the only such handler is `SystemActionsReset`, whose map has an entry
for POST only, so that GET, HEAD, PATCH, PUT and DELETE on the
ComputerSystem.Reset route are denied for every caller. -/
theorem authorize_denies_unregistered (h : Handler) (v : Verb) (caller : List String)
    (hv : h.entityPrivileges.lookup v = none) :
    authorize h.entityPrivileges v caller = false ∧
    h = Handler.SystemActionsReset ∧
    (∀ w, w ∈ [Verb.get, Verb.head, Verb.patch, Verb.put, Verb.delete_] →
      Handler.SystemActionsReset.entityPrivileges.lookup w = none ∧
      authorize Handler.SystemActionsReset.entityPrivileges w caller = false) := by
  have hreset : ∀ w, w ∈ [Verb.get, Verb.head, Verb.patch, Verb.put, Verb.delete_] →
      Handler.SystemActionsReset.entityPrivileges.lookup w = none ∧
      authorize Handler.SystemActionsReset.entityPrivileges w caller = false := by
    intro w hw
    simp only [List.mem_cons, List.mem_singleton, List.not_mem_nil, or_false] at hw
    rcases hw with rfl | rfl | rfl | rfl | rfl <;> exact ⟨by decide, rfl⟩
  cases h <;> cases v <;>
    first
    | (exfalso; revert hv; decide)
    | exact ⟨rfl, rfl, hreset⟩

/-- Witness for C10: PATCH on the ComputerSystem.Reset route by a caller that
holds every privilege name used in the sources. -/
theorem authorize_denies_unregistered_witness :
    Handler.SystemActionsReset.entityPrivileges.lookup Verb.patch = none ∧
    authorize Handler.SystemActionsReset.entityPrivileges Verb.patch
      ["Login", "ConfigureComponents", "ConfigureManager"] = false :=
  ⟨by decide,
    (authorize_denies_unregistered Handler.SystemActionsReset Verb.patch
      ["Login", "ConfigureComponents", "ConfigureManager"] (by decide)).1⟩

/-- Counterexample for C11: the Manager.Reset route registers the single
alternative set {ConfigureManager} for POST, not {ConfigureComponents}. -/
theorem ManagerActionsReset_post_not_ConfigureComponents :
    Handler.ManagerActionsReset.isAction = true ∧
    Handler.ManagerActionsReset.entityPrivileges.lookup Verb.post =
      some [["ConfigureManager"]] ∧
    Handler.ManagerActionsReset.entityPrivileges.lookup Verb.post ≠
      some [["ConfigureComponents"]] := by
  decide

/-- C11 as amended: the action handlers are `ManagerActionsReset` and
`SystemActionsReset`, and each registers exactly one alternative privilege set
for POST: {ConfigureManager} on the Manager.Reset route, {ConfigureComponents}
on the ComputerSystem.Reset route. -/
theorem reset_actions_post_privilege (h : Handler) :
    (h.isAction = true ↔ h = Handler.ManagerActionsReset ∨ h = Handler.SystemActionsReset) ∧
    Handler.ManagerActionsReset.url = "/redfish/v1/Managers/rmc/Actions/Manager.Reset/" ∧
    Handler.ManagerActionsReset.entityPrivileges.lookup Verb.post =
      some [["ConfigureManager"]] ∧
    Handler.SystemActionsReset.url =
      "/redfish/v1/Systems/<str>/Actions/ComputerSystem.Reset/" ∧
    Handler.SystemActionsReset.entityPrivileges.lookup Verb.post =
      some [["ConfigureComponents"]] := by
  refine ⟨?_, rfl, by decide, rfl, by decide⟩
  cases h <;> decide

/-- Counterexample for C12: the Power route, which lies under
`/redfish/v1/Chassis/` and is no action route, registers {ConfigureManager}
for PATCH, not {ConfigureComponents}. -/
theorem Power_patch_not_ConfigureComponents :
    Handler.Power.isAction = false ∧
    Handler.Power.isUnder "/redfish/v1/Chassis/" = true ∧
    Handler.Power.isUnder "/redfish/v1/Managers/" = false ∧
    Handler.Power.entityPrivileges.lookup Verb.patch = some [["ConfigureManager"]] ∧
    Handler.Power.entityPrivileges.lookup Verb.patch ≠ some [["ConfigureComponents"]] := by
  decide

/-- C12 as amended: on every route that is no action route, each of PATCH,
PUT, DELETE and POST is registered with one and the same single alternative
privilege set: {ConfigureManager} on the routes under `/redfish/v1/Managers/`
and on the Power route, {ConfigureComponents} on every other route. -/
theorem write_verbs_privilege (h : Handler) (v : Verb)
    (hh : h.isAction = false) (hv : v.isWrite = true) :
    h.entityPrivileges.lookup v =
      some [[if h.isUnder "/redfish/v1/Managers/" = true ∨ h = Handler.Power
             then "ConfigureManager" else "ConfigureComponents"]] := by
  cases h <;> cases v <;>
    first
    | (exfalso; revert hh; decide)
    | (exfalso; revert hv; decide)
    | decide

/-- Witness for C12 as amended: PUT on the Power route and DELETE on the
chassis collection. -/
theorem write_verbs_privilege_witness :
    Handler.Power.entityPrivileges.lookup Verb.put = some [["ConfigureManager"]] ∧
    Handler.ChassisCollection.entityPrivileges.lookup Verb.delete_ =
      some [["ConfigureComponents"]] :=
  ⟨write_verbs_privilege Handler.Power Verb.put (by decide) (by decide),
   write_verbs_privilege Handler.ChassisCollection Verb.delete_ (by decide) (by decide)⟩

/-- C13: on every route the requirement of HEAD is that of GET: both absent,
or both the single alternative set {Login}; so HEAD is authorized for a
caller exactly when GET is. -/
theorem head_requirement_is_get_requirement (h : Handler) (caller : List String) :
    h.entityPrivileges.lookup Verb.head = h.entityPrivileges.lookup Verb.get ∧
    (h.entityPrivileges.lookup Verb.get = none ∨
      h.entityPrivileges.lookup Verb.get = some [["Login"]]) ∧
    authorize h.entityPrivileges Verb.head caller =
      authorize h.entityPrivileges Verb.get caller := by
  cases h <;> exact ⟨by decide, by decide, rfl⟩

/-- C20: on every route a caller whose privilege set is exactly {Login} is
denied PATCH, PUT, DELETE and POST, and a caller who holds nothing but
ConfigureComponents and ConfigureManager is denied GET and HEAD. -/
theorem read_only_caller_cannot_write (h : Handler) (v : Verb) (caller : List String)
    (hv : v.isWrite = true)
    (hc : ∀ p, p ∈ caller → p = "ConfigureComponents" ∨ p = "ConfigureManager") :
    authorize h.entityPrivileges v ["Login"] = false ∧
    authorize h.entityPrivileges Verb.get caller = false ∧
    authorize h.entityPrivileges Verb.head caller = false := by
  have hlogin : "Login" ∉ caller := by
    intro hp
    rcases hc "Login" hp with hp | hp <;> revert hp <;> decide
  have hreq : ∀ w, w = Verb.get ∨ w = Verb.head →
      requirementFor h.entityPrivileges w = none ∨
        requirementFor h.entityPrivileges w = some [["Login"]] := by
    intro w hw
    rcases hw with rfl | rfl <;> cases h <;> decide
  have hdeny : ∀ w, w = Verb.get ∨ w = Verb.head →
      authorize h.entityPrivileges w caller = false := by
    intro w hw
    unfold authorize
    rcases hreq w hw with hr | hr <;> rw [hr]
    simp [isSupersetOf, hlogin]
  refine ⟨?_, hdeny _ (Or.inl rfl), hdeny _ (Or.inr rfl)⟩
  cases h <;> cases v <;>
    first
    | (exfalso; revert hv; decide)
    | decide

/-- Witness for C20: POST on the Manager.Reset route by the caller {Login};
GET and HEAD by the caller {ConfigureComponents, ConfigureManager}. -/
theorem read_only_caller_cannot_write_witness :
    authorize Handler.ManagerActionsReset.entityPrivileges Verb.post ["Login"] = false ∧
    authorize Handler.ManagerActionsReset.entityPrivileges Verb.get
      ["ConfigureComponents", "ConfigureManager"] = false ∧
    authorize Handler.ManagerActionsReset.entityPrivileges Verb.head
      ["ConfigureComponents", "ConfigureManager"] = false :=
  read_only_caller_cannot_write Handler.ManagerActionsReset Verb.post
    ["ConfigureComponents", "ConfigureManager"] (by decide) (by
      intro p hp
      simpa using hp)

set_option maxRecDepth 100000 in
/-- C18: the voltage entries are to carry the readings passed in
`getPowerInfo`: 12, 5, 3.3, 1.5 and 3.3. They do not: `getVoltagesInfo` takes
the reading as `int value`, so for every chassis name the five entries of
`Voltages` (member ids 0 to 4, links ending in `/Power#/Voltages/i`) carry the
readings 12, 5, 3, 1 and 3, and the stored 3 and 1 differ from the 3.3 and 1.5
passed. -/
theorem Power_doGet_readings_truncated (c : String) :
    (Power.doGet [c] State.init).map (fun st =>
      ((st.res.jsonValue.atPath? [.key "Voltages"]).map Json.size,
       (List.range 5).map fun i =>
        ((st.res.jsonValue.atPath? [.key "Voltages", .idx i, .key "MemberId"]).bind Json.int?,
         (st.res.jsonValue.atPath? [.key "Voltages", .idx i, .key "@odata.id"]).bind Json.str?,
         (st.res.jsonValue.atPath? [.key "Voltages", .idx i, .key "Name"]).bind Json.str?,
         (st.res.jsonValue.atPath? [.key "Voltages", .idx i, .key "ReadingVolts"]).bind
           Json.int?))) =
      some (some 5,
        [(some 0, some ("/redfish/v1/Chassis/" ++ c ++ "/Power#/Voltages/" ++ "0"),
            some "VRM1", some 12),
         (some 1, some ("/redfish/v1/Chassis/" ++ c ++ "/Power#/Voltages/" ++ "1"),
            some "P5V", some 5),
         (some 2, some ("/redfish/v1/Chassis/" ++ c ++ "/Power#/Voltages/" ++ "2"),
            some "P3.3V", some 3),
         (some 3, some ("/redfish/v1/Chassis/" ++ c ++ "/Power#/Voltages/" ++ "3"),
            some "P1.5V", some 1),
         (some 4, some ("/redfish/v1/Chassis/" ++ c ++ "/Power#/Voltages/" ++ "4"),
            some "P3.3V_STBY", some 3)]) ∧
    doubleToInt 33 1 = 3 ∧ ((doubleToInt 33 1 : Int) : ℚ) ≠ 33 / 10 ^ 1 ∧
    doubleToInt 15 1 = 1 ∧ ((doubleToInt 15 1 : Int) : ℚ) ≠ 15 / 10 ^ 1 := by
  have h33 : doubleToInt 33 1 = 3 := by decide
  have h15 : doubleToInt 15 1 = 1 := by decide
  refine ⟨rfl, h33, ?_, h15, ?_⟩
  · rw [h33]
    norm_num
  · rw [h15]
    norm_num

/-- Appending to the same string is injective. -/
theorem String_append_left_cancel (a b c : String) (h : a ++ b = a ++ c) : b = c := by
  have hd := congrArg String.data h
  simp only [String.data_append] at hd
  exact String.ext (List.append_cancel_left hd)

/-- Distinct member names give distinct member links. -/
theorem member_links_nodup (self : String) (names : List String) (hn : names.Nodup) :
    (names.map fun n => self ++ "/" ++ n).Nodup := by
  refine hn.map ?_
  intro n m hnm
  exact String_append_left_cancel (self ++ "/") n m hnm

/-- Reading the link of an object with the single member `@odata.id`. -/
theorem read_member_link (link : String) :
    ((Json.obj [("@odata.id", Json.str link)]).get? "@odata.id").bind Json.str? = some link :=
  rfl

/-- What the collection handlers send as `@odata.id` and as `Members`: each
element of `Members` is an object with the single member `@odata.id`. -/
theorem collections_sent_members (params : List String) (c : String) :
    (ChassisCollection.doGet params State.init).map (fun st => st.res.sent.map fun s =>
        (s.body.get? "@odata.id", s.body.get? "Members")) =
      some (some (some (Json.str ("/redfish/v1/Chassis")),
        some (Json.arr (["chassis1", "chassis2", "chassis3"].map fun n =>
          Json.obj [("@odata.id", Json.str ("/redfish/v1/Chassis" ++ "/" ++ n))])))) ∧
    (ManagerCollection.doGet params State.init).map (fun st => st.res.sent.map fun s =>
        (s.body.get? "@odata.id", s.body.get? "Members")) =
      some (some (some (Json.str ("/redfish/v1/Managers")),
        some (Json.arr (["rmc"].map fun n =>
          Json.obj [("@odata.id", Json.str ("/redfish/v1/Managers" ++ "/" ++ n))])))) ∧
    (SystemsCollection.doGet params State.init).map (fun st => st.res.sent.map fun s =>
        (s.body.get? "@odata.id", s.body.get? "Members")) =
      some (some (some (Json.str ("/redfish/v1/Systems")),
        some (Json.arr (["system1", "system2", "system3"].map fun n =>
          Json.obj [("@odata.id", Json.str ("/redfish/v1/Systems" ++ "/" ++ n))])))) ∧
    (ProcessorCollection.doGet [c] State.init).map (fun st => st.res.sent.map fun s =>
        (s.body.get? "@odata.id", s.body.get? "Members")) =
      some (some (some (Json.str ("/redfish/v1/Systems/" ++ c ++ "/Processors")),
        some (Json.arr (["cpu0", "cpu1"].map fun n =>
          Json.obj [("@odata.id", Json.str ("/redfish/v1/Systems/" ++ c ++ "/Processors" ++ "/" ++ n))])))) ∧
    (MemoryCollection.doGet [c] State.init).map (fun st => st.res.sent.map fun s =>
        (s.body.get? "@odata.id", s.body.get? "Members")) =
      some (some (some (Json.str ("/redfish/v1/Systems/" ++ c ++ "/Memory")),
        some (Json.arr (["mem0", "mem1", "mem2", "mem3"].map fun n =>
          Json.obj [("@odata.id", Json.str ("/redfish/v1/Systems/" ++ c ++ "/Memory" ++ "/" ++ n))])))) := by
  refine ⟨rfl, rfl, rfl, ?_, ?_⟩
  · have h : (ProcessorCollection.doGet [c] State.init).map (fun st => st.res.sent.map fun s =>
        (s.body.get? "@odata.id", s.body.get? "Members")) =
      some (some (some (Json.str ("/redfish/v1/Systems/" ++ c ++ "/Processors")),
        some (Json.arr [Json.obj [("@odata.id", Json.str ("/redfish/v1/Systems/" ++ c ++ "/Processors/cpu0"))],
          Json.obj [("@odata.id", Json.str ("/redfish/v1/Systems/" ++ c ++ "/Processors/cpu1"))]]))) := rfl
    rw [h]
    simp [String.append_assoc]
  · have h : (MemoryCollection.doGet [c] State.init).map (fun st => st.res.sent.map fun s =>
        (s.body.get? "@odata.id", s.body.get? "Members")) =
      some (some (some (Json.str ("/redfish/v1/Systems/" ++ c ++ "/Memory")),
        some (Json.arr [Json.obj [("@odata.id", Json.str ("/redfish/v1/Systems/" ++ c ++ "/Memory/mem0"))],
          Json.obj [("@odata.id", Json.str ("/redfish/v1/Systems/" ++ c ++ "/Memory/mem1"))],
          Json.obj [("@odata.id", Json.str ("/redfish/v1/Systems/" ++ c ++ "/Memory/mem2"))],
          Json.obj [("@odata.id", Json.str ("/redfish/v1/Systems/" ++ c ++ "/Memory/mem3"))]]))) := rfl
    rw [h]
    simp [String.append_assoc]

/-- C17: every collection handler, called with as many parameters as its URL
has placeholders, sends as `Members` an array whose elements are objects with
the single member `@odata.id`; the link read from each element is the
`@odata.id` of the collection, as read from the same body, followed by `/` and
a member name; the member names are those listed per collection, they are
non-empty, contain no `/` and are pairwise distinct, and the links read from
the elements are pairwise distinct. -/
theorem collection_member_links (env : Env) (h : Handler) (req : Request)
    (params : List String)
    (hcol : h ∈ [Handler.ChassisCollection, Handler.ManagerCollection,
      Handler.SystemsCollection, Handler.ProcessorCollection, Handler.MemoryCollection])
    (hlen : params.length = h.paramCount) :
    ∃ f st s self names members, h.run env Verb.get = some f ∧
      f req params State.init = some st ∧ st.res.sent = some s ∧
      s.body.get? "@odata.id" = some (Json.str self) ∧
      s.body.get? "Members" = some (Json.arr members) ∧
      members = names.map (fun n => Json.obj [("@odata.id", Json.str (self ++ "/" ++ n))]) ∧
      members.map (fun m => (m.get? "@odata.id").bind Json.str?) =
        names.map (fun n => some (self ++ "/" ++ n)) ∧
      (members.map fun m => (m.get? "@odata.id").bind Json.str?).Nodup ∧
      members.length = names.length ∧
      names.Nodup ∧ (names.map fun n => self ++ "/" ++ n).Nodup ∧
      (∀ n, n ∈ names → n ≠ "" ∧ '/' ∉ n.toList) ∧
      (h = Handler.ChassisCollection → names = ["chassis1", "chassis2", "chassis3"]) ∧
      (h = Handler.ManagerCollection → names = ["rmc"]) ∧
      (h = Handler.SystemsCollection → names = ["system1", "system2", "system3"]) ∧
      (h = Handler.ProcessorCollection → names = ["cpu0", "cpu1"]) ∧
      (h = Handler.MemoryCollection → names = ["mem0", "mem1", "mem2", "mem3"]) := by
  have key : ∀ (o : Option State) (self : String) (names : List String),
      o.map (fun st => st.res.sent.map fun s =>
        (s.body.get? "@odata.id", s.body.get? "Members")) =
        some (some (some (Json.str self),
          some (Json.arr (names.map fun n =>
            Json.obj [("@odata.id", Json.str (self ++ "/" ++ n))])))) →
      names.Nodup →
      ∃ st s members, o = some st ∧ st.res.sent = some s ∧
      s.body.get? "@odata.id" = some (Json.str self) ∧
  s.body.get? "Members" = some (Json.arr members) ∧
  members = names.map (fun n => Json.obj [("@odata.id", Json.str (self ++ "/" ++ n))]) ∧
  members.map (fun m => (m.get? "@odata.id").bind Json.str?) =
    names.map (fun n => some (self ++ "/" ++ n)) ∧
  (members.map fun m => (m.get? "@odata.id").bind Json.str?).Nodup ∧
  members.length = names.length ∧
  names.Nodup ∧ (names.map fun n => self ++ "/" ++ n).Nodup := by
    intro o self names ho hn
    obtain ⟨st, hst, hobs⟩ := exists_of_map_eq_some ho
    obtain ⟨s, hs, hs'⟩ := Option.map_eq_some'.mp hobs
    simp only [Prod.mk.injEq] at hs'
    have hread : (names.map fun n =>
        Json.obj [("@odata.id", Json.str (self ++ "/" ++ n))]).map
          (fun m => (m.get? "@odata.id").bind Json.str?) =
        names.map (fun n => some (self ++ "/" ++ n)) := by
      rw [List.map_map]
      exact List.map_congr_left fun n _ => read_member_link (self ++ "/" ++ n)
    have hlinks := member_links_nodup self names hn
    have hsome : (names.map fun n => some (self ++ "/" ++ n)).Nodup := by
      have := hlinks.map (Option.some_injective String)
      rwa [List.map_map] at this
    refine ⟨st, s, _, hst, hs, hs'.1, hs'.2, rfl, hread, ?_, ?_, hn, hlinks⟩
    · rw [hread]
      exact hsome
    · exact List.length_map _ _
  simp only [List.mem_cons, List.mem_singleton, List.not_mem_nil, or_false] at hcol
  rcases hcol with rfl | rfl | rfl | rfl | rfl
  · obtain ⟨st, s, members, hst, hs, h1, h2, h3, h4, h5, h6, h7, h8⟩ :=
      key _ _ _ (collections_sent_members params "").1 (by decide)
    exact ⟨_, st, s, _, _, members, rfl, hst, hs, h1, h2, h3, h4, h5, h6, h7, h8, by decide,
      fun _ => rfl, by decide, by decide, by decide, by decide⟩
  · obtain ⟨st, s, members, hst, hs, h1, h2, h3, h4, h5, h6, h7, h8⟩ :=
      key _ _ _ (collections_sent_members params "").2.1 (by decide)
    exact ⟨_, st, s, _, _, members, rfl, hst, hs, h1, h2, h3, h4, h5, h6, h7, h8, by decide,
      by decide, fun _ => rfl, by decide, by decide, by decide⟩
  · obtain ⟨st, s, members, hst, hs, h1, h2, h3, h4, h5, h6, h7, h8⟩ :=
      key _ _ _ (collections_sent_members params "").2.2.1 (by decide)
    exact ⟨_, st, s, _, _, members, rfl, hst, hs, h1, h2, h3, h4, h5, h6, h7, h8, by decide,
      by decide, by decide, fun _ => rfl, by decide, by decide⟩
  · obtain ⟨c, rfl⟩ := List.length_eq_one.mp hlen
    obtain ⟨st, s, members, hst, hs, h1, h2, h3, h4, h5, h6, h7, h8⟩ :=
      key _ _ _ (collections_sent_members [] c).2.2.2.1 (by decide)
    exact ⟨_, st, s, _, _, members, rfl, hst, hs, h1, h2, h3, h4, h5, h6, h7, h8, by decide,
      by decide, by decide, by decide, fun _ => rfl, by decide⟩
  · obtain ⟨c, rfl⟩ := List.length_eq_one.mp hlen
    obtain ⟨st, s, members, hst, hs, h1, h2, h3, h4, h5, h6, h7, h8⟩ :=
      key _ _ _ (collections_sent_members [] c).2.2.2.2 (by decide)
    exact ⟨_, st, s, _, _, members, rfl, hst, hs, h1, h2, h3, h4, h5, h6, h7, h8, by decide,
      by decide, by decide, by decide, by decide, fun _ => rfl⟩

/-- Witness for C17: the processor collection of `system1`. -/
theorem collection_member_links_witness :
    ∃ f st s self names members,
      Handler.ProcessorCollection.run ⟨"uuid", none⟩ Verb.get = some f ∧
      f ⟨none⟩ ["system1"] State.init = some st ∧ st.res.sent = some s ∧
      s.body.get? "@odata.id" = some (Json.str self) ∧
      s.body.get? "Members" = some (Json.arr members) ∧
      members = names.map (fun n => Json.obj [("@odata.id", Json.str (self ++ "/" ++ n))]) ∧
      members.map (fun m => (m.get? "@odata.id").bind Json.str?) =
        names.map (fun n => some (self ++ "/" ++ n)) ∧
      (members.map fun m => (m.get? "@odata.id").bind Json.str?).Nodup ∧
      members.length = names.length ∧
      names.Nodup ∧ (names.map fun n => self ++ "/" ++ n).Nodup ∧
      (∀ n, n ∈ names → n ≠ "" ∧ '/' ∉ n.toList) ∧
      (Handler.ProcessorCollection = Handler.ChassisCollection →
        names = ["chassis1", "chassis2", "chassis3"]) ∧
      (Handler.ProcessorCollection = Handler.ManagerCollection → names = ["rmc"]) ∧
      (Handler.ProcessorCollection = Handler.SystemsCollection →
        names = ["system1", "system2", "system3"]) ∧
      (Handler.ProcessorCollection = Handler.ProcessorCollection → names = ["cpu0", "cpu1"]) ∧
      (Handler.ProcessorCollection = Handler.MemoryCollection →
        names = ["mem0", "mem1", "mem2", "mem3"]) :=
  collection_member_links ⟨"uuid", none⟩ Handler.ProcessorCollection ⟨none⟩ ["system1"]
    (by decide) (by decide)

/-- A list of characters without a slash is a single segment. -/
theorem splitSlash_of_not_mem (cs : List Char) (h : '/' ∉ cs) : splitSlash cs = [cs] := by
  induction cs with
  | nil => rfl
  | cons c cs ih =>
    have hc : c ≠ '/' := fun hc => h (hc ▸ List.mem_cons_self _ _)
    have hcs : '/' ∉ cs := fun hm => h (List.mem_cons_of_mem _ hm)
    simp only [splitSlash, if_neg hc, ih hcs]

/-- A segment without a slash, followed by a slash, is split off. -/
theorem splitSlash_append_slash (seg rest : List Char) (h : '/' ∉ seg) :
    splitSlash (seg ++ '/' :: rest) = seg :: splitSlash rest := by
  induction seg with
  | nil => simp [splitSlash]
  | cons c cs ih =>
    have hc : c ≠ '/' := fun hc => h (hc ▸ List.mem_cons_self _ _)
    have hcs : '/' ∉ cs := fun hm => h (List.mem_cons_of_mem _ hm)
    show splitSlash (c :: (cs ++ '/' :: rest)) = _
    simp only [splitSlash, if_neg hc, ih hcs]

/-- Splitting a path joined from segments without slashes gives back the
segments. -/
theorem splitSlash_joinSlash (segs : List (List Char)) (hne : segs ≠ [])
    (h : ∀ seg, seg ∈ segs → '/' ∉ seg) : splitSlash (joinSlash segs) = segs := by
  induction segs with
  | nil => exact absurd rfl hne
  | cons seg segs ih =>
    cases segs with
    | nil => exact splitSlash_of_not_mem seg (h seg (List.mem_cons_self _ _))
    | cons seg' segs =>
      have hseg : '/' ∉ seg := h seg (List.mem_cons_self _ _)
      have hrest : ∀ s, s ∈ seg' :: segs → '/' ∉ s := fun s hs => h s (List.mem_cons_of_mem _ hs)
      show splitSlash (seg ++ '/' :: joinSlash (seg' :: segs)) = _
      rw [splitSlash_append_slash _ _ hseg, ih (List.cons_ne_nil _ _) hrest]

/-- Joining one more segment appends a slash and the segment. -/
theorem joinSlash_concat (init : List (List Char)) (s : List Char) (hne : init ≠ []) :
    joinSlash (init ++ [s]) = joinSlash init ++ '/' :: s := by
  induction init with
  | nil => exact absurd rfl hne
  | cons seg segs ih =>
    cases segs with
    | nil => rfl
    | cons seg' segs =>
      show seg ++ '/' :: joinSlash ((seg' :: segs) ++ [s]) = _
      rw [ih (List.cons_ne_nil _ _)]
      show _ = (seg ++ '/' :: joinSlash (seg' :: segs)) ++ '/' :: s
      simp

/-- A joined path whose last segment is empty loses that segment with its
trailing slash. -/
theorem stripTrailingSlash_joinSlash_trailing (init : List (List Char)) (hne : init ≠ []) :
    stripTrailingSlash (joinSlash (init ++ [[]])) = joinSlash init := by
  rw [joinSlash_concat init [] hne]
  simp [stripTrailingSlash]

/-- A joined path whose last segment is not empty and has no slash keeps its
end. -/
theorem stripTrailingSlash_joinSlash_plain (init : List (List Char)) (last : List Char)
    (hl : last ≠ []) (hns : '/' ∉ last) :
    stripTrailingSlash (joinSlash (init ++ [last])) = joinSlash (init ++ [last]) := by
  have hlast : (joinSlash (init ++ [last])).getLast? = last.getLast? := by
    cases init with
    | nil => rfl
    | cons seg segs =>
      rw [joinSlash_concat _ _ (List.cons_ne_nil _ _)]
      obtain ⟨c, cs, rfl⟩ := List.exists_cons_of_ne_nil hl
      rw [show joinSlash (seg :: segs) ++ '/' :: c :: cs =
        (joinSlash (seg :: segs) ++ ['/']) ++ (c :: cs) by simp]
      rw [List.getLast?_append_of_ne_nil _ (List.cons_ne_nil _ _)]
  unfold stripTrailingSlash
  rw [hlast, if_neg]
  intro hg
  exact hns (List.mem_of_getLast?_eq_some hg)

/-- The segments of a joined path whose last segment is empty. -/
theorem pathSegments_joinSlash_trailing (init : List (List Char)) (hne : init ≠ [])
    (hns : ∀ seg, seg ∈ init → '/' ∉ seg) :
    pathSegments (String.mk (joinSlash (init ++ [[]]))) = init.map String.mk := by
  show (splitSlash (stripTrailingSlash (joinSlash (init ++ [[]])))).map String.mk = _
  rw [stripTrailingSlash_joinSlash_trailing init hne, splitSlash_joinSlash init hne hns]

/-- The segments of a joined path whose last segment is not empty. -/
theorem pathSegments_joinSlash_plain (init : List (List Char)) (last : List Char)
    (hl : last ≠ []) (hns : ∀ seg, seg ∈ init ++ [last] → '/' ∉ seg) :
    pathSegments (String.mk (joinSlash (init ++ [last]))) = (init ++ [last]).map String.mk := by
  show (splitSlash (stripTrailingSlash (joinSlash (init ++ [last])))).map String.mk = _
  rw [stripTrailingSlash_joinSlash_plain init last hl (hns last (by simp)),
    splitSlash_joinSlash (init ++ [last]) (by simp) hns]

/-- A parameter that is not the empty string has characters. -/
theorem toList_ne_nil_of_ne_empty (p : String) (hp : p ≠ "") : p.toList ≠ [] := by
  intro h
  apply hp
  exact String.ext h

/-- C14: for each of the 13 URLs and every parameter vector of as many
parameters as the URL has placeholders, each parameter non-empty and without a
slash, the path that results from substituting the parameters for the
placeholders matches the same URL and captures exactly these parameters, in
order. -/
theorem substitute_roundtrip (h : Handler) (params : List String)
    (hlen : params.length = h.paramCount)
    (hp : ∀ p, p ∈ params → p ≠ "" ∧ '/' ∉ p.toList) :
    matchTemplate h.url (substitute h.url params) = some params := by
  cases h <;> simp only [Handler.paramCount] at hlen
  case ChassisCollection =>
    obtain rfl := List.length_eq_zero.mp hlen
    decide
  case Chassis =>
    obtain ⟨a, rfl⟩ := List.length_eq_one.mp hlen
    have ha := hp a (List.mem_singleton_self a)
    have hF : substitute Handler.Chassis.url [a] = String.mk (joinSlash
        ([[], "redfish".toList, "v1".toList, "Chassis".toList, a.toList] ++
          [[]])) := rfl
    have hT : parseTemplate Handler.Chassis.url =
        [Segment.literal "", Segment.literal "redfish", Segment.literal "v1",
          Segment.literal "Chassis", Segment.placeholder] := by
      decide
    have hP := pathSegments_joinSlash_trailing
      [[], "redfish".toList, "v1".toList, "Chassis".toList, a.toList]
      (List.cons_ne_nil _ _) (by
        intro seg hseg
        simp only [List.mem_cons, List.mem_singleton, List.mem_append, List.not_mem_nil,
          or_false] at hseg
        rcases hseg with rfl | rfl | rfl | rfl | rfl <;>
          first
          | exact ha.2
          | decide)
    unfold matchTemplate
    rw [hF, hP, hT]
    show matchSegments _ ["", "redfish", "v1", "Chassis", a] = _
    simp [matchSegments, ha.1]
  case Power =>
    obtain ⟨a, rfl⟩ := List.length_eq_one.mp hlen
    have ha := hp a (List.mem_singleton_self a)
    have hF : substitute Handler.Power.url [a] = String.mk (joinSlash
        ([[], "redfish".toList, "v1".toList, "Chassis".toList, a.toList, "Power".toList] ++
          [[]])) := rfl
    have hT : parseTemplate Handler.Power.url =
        [Segment.literal "", Segment.literal "redfish", Segment.literal "v1",
          Segment.literal "Chassis", Segment.placeholder, Segment.literal "Power"] := by
      decide
    have hP := pathSegments_joinSlash_trailing
      [[], "redfish".toList, "v1".toList, "Chassis".toList, a.toList, "Power".toList]
      (List.cons_ne_nil _ _) (by
        intro seg hseg
        simp only [List.mem_cons, List.mem_singleton, List.mem_append, List.not_mem_nil,
          or_false] at hseg
        rcases hseg with rfl | rfl | rfl | rfl | rfl | rfl <;>
          first
          | exact ha.2
          | decide)
    unfold matchTemplate
    rw [hF, hP, hT]
    show matchSegments _ ["", "redfish", "v1", "Chassis", a, "Power"] = _
    simp [matchSegments, ha.1]
  case ManagerActionsReset =>
    obtain rfl := List.length_eq_zero.mp hlen
    decide
  case Manager =>
    obtain rfl := List.length_eq_zero.mp hlen
    decide
  case ManagerCollection =>
    obtain rfl := List.length_eq_zero.mp hlen
    decide
  case SystemsCollection =>
    obtain rfl := List.length_eq_zero.mp hlen
    decide
  case SystemActionsReset =>
    obtain ⟨a, rfl⟩ := List.length_eq_one.mp hlen
    have ha := hp a (List.mem_singleton_self a)
    have hF : substitute Handler.SystemActionsReset.url [a] = String.mk (joinSlash
        ([[], "redfish".toList, "v1".toList, "Systems".toList, a.toList, "Actions".toList,
          "ComputerSystem.Reset".toList] ++
          [[]])) := rfl
    have hT : parseTemplate Handler.SystemActionsReset.url =
        [Segment.literal "", Segment.literal "redfish", Segment.literal "v1",
          Segment.literal "Systems", Segment.placeholder, Segment.literal "Actions",
          Segment.literal "ComputerSystem.Reset"] := by
      decide
    have hP := pathSegments_joinSlash_trailing
      [[], "redfish".toList, "v1".toList, "Systems".toList, a.toList, "Actions".toList,
        "ComputerSystem.Reset".toList]
      (List.cons_ne_nil _ _) (by
        intro seg hseg
        simp only [List.mem_cons, List.mem_singleton, List.mem_append, List.not_mem_nil,
          or_false] at hseg
        rcases hseg with rfl | rfl | rfl | rfl | rfl | rfl | rfl <;>
          first
          | exact ha.2
          | decide)
    unfold matchTemplate
    rw [hF, hP, hT]
    show matchSegments _ ["", "redfish", "v1", "Systems", a, "Actions", "ComputerSystem.Reset"] = _
    simp [matchSegments, ha.1]
  case Systems =>
    obtain ⟨a, rfl⟩ := List.length_eq_one.mp hlen
    have ha := hp a (List.mem_singleton_self a)
    have hF : substitute Handler.Systems.url [a] = String.mk (joinSlash
        ([[], "redfish".toList, "v1".toList, "Systems".toList, a.toList] ++
          [[]])) := rfl
    have hT : parseTemplate Handler.Systems.url =
        [Segment.literal "", Segment.literal "redfish", Segment.literal "v1",
          Segment.literal "Systems", Segment.placeholder] := by
      decide
    have hP := pathSegments_joinSlash_trailing
      [[], "redfish".toList, "v1".toList, "Systems".toList, a.toList]
      (List.cons_ne_nil _ _) (by
        intro seg hseg
        simp only [List.mem_cons, List.mem_singleton, List.mem_append, List.not_mem_nil,
          or_false] at hseg
        rcases hseg with rfl | rfl | rfl | rfl | rfl <;>
          first
          | exact ha.2
          | decide)
    unfold matchTemplate
    rw [hF, hP, hT]
    show matchSegments _ ["", "redfish", "v1", "Systems", a] = _
    simp [matchSegments, ha.1]
  case ProcessorCollection =>
    obtain ⟨a, rfl⟩ := List.length_eq_one.mp hlen
    have ha := hp a (List.mem_singleton_self a)
    have hF : substitute Handler.ProcessorCollection.url [a] = String.mk (joinSlash
        ([[], "redfish".toList, "v1".toList, "Systems".toList, a.toList] ++
          ["Processors".toList])) := rfl
    have hT : parseTemplate Handler.ProcessorCollection.url =
        [Segment.literal "", Segment.literal "redfish", Segment.literal "v1",
          Segment.literal "Systems", Segment.placeholder, Segment.literal "Processors"] := by
      decide
    have hP := pathSegments_joinSlash_plain
      [[], "redfish".toList, "v1".toList, "Systems".toList, a.toList]
      ("Processors".toList) (by decide) (by
        intro seg hseg
        simp only [List.mem_cons, List.mem_singleton, List.mem_append, List.not_mem_nil,
          or_false] at hseg
        rcases hseg with (rfl | rfl | rfl | rfl | rfl) | rfl <;>
          first
          | exact ha.2
          | decide)
    unfold matchTemplate
    rw [hF, hP, hT]
    show matchSegments _ ["", "redfish", "v1", "Systems", a, "Processors"] = _
    simp [matchSegments, ha.1]
  case MemoryCollection =>
    obtain ⟨a, rfl⟩ := List.length_eq_one.mp hlen
    have ha := hp a (List.mem_singleton_self a)
    have hF : substitute Handler.MemoryCollection.url [a] = String.mk (joinSlash
        ([[], "redfish".toList, "v1".toList, "Systems".toList, a.toList] ++
          ["Memory".toList])) := rfl
    have hT : parseTemplate Handler.MemoryCollection.url =
        [Segment.literal "", Segment.literal "redfish", Segment.literal "v1",
          Segment.literal "Systems", Segment.placeholder, Segment.literal "Memory"] := by
      decide
    have hP := pathSegments_joinSlash_plain
      [[], "redfish".toList, "v1".toList, "Systems".toList, a.toList]
      ("Memory".toList) (by decide) (by
        intro seg hseg
        simp only [List.mem_cons, List.mem_singleton, List.mem_append, List.not_mem_nil,
          or_false] at hseg
        rcases hseg with (rfl | rfl | rfl | rfl | rfl) | rfl <;>
          first
          | exact ha.2
          | decide)
    unfold matchTemplate
    rw [hF, hP, hT]
    show matchSegments _ ["", "redfish", "v1", "Systems", a, "Memory"] = _
    simp [matchSegments, ha.1]
  case Processor =>
    obtain ⟨a, b, rfl⟩ := List.length_eq_two.mp hlen
    have ha := hp a (by simp)
    have hb := hp b (by simp)
    have hF : substitute Handler.Processor.url [a, b] = String.mk (joinSlash
        ([[], "redfish".toList, "v1".toList, "Systems".toList, a.toList, "Processors".toList] ++
          [b.toList])) := rfl
    have hT : parseTemplate Handler.Processor.url =
        [Segment.literal "", Segment.literal "redfish", Segment.literal "v1",
          Segment.literal "Systems", Segment.placeholder, Segment.literal "Processors",
          Segment.placeholder] := by
      decide
    have hP := pathSegments_joinSlash_plain
      [[], "redfish".toList, "v1".toList, "Systems".toList, a.toList, "Processors".toList]
      (b.toList) (toList_ne_nil_of_ne_empty _ hb.1) (by
        intro seg hseg
        simp only [List.mem_cons, List.mem_singleton, List.mem_append, List.not_mem_nil,
          or_false] at hseg
        rcases hseg with (rfl | rfl | rfl | rfl | rfl | rfl) | rfl <;>
          first
          | exact ha.2
          | exact hb.2
          | decide)
    unfold matchTemplate
    rw [hF, hP, hT]
    show matchSegments _ ["", "redfish", "v1", "Systems", a, "Processors", b] = _
    simp [matchSegments, ha.1, hb.1]
  case Memory =>
    obtain ⟨a, b, rfl⟩ := List.length_eq_two.mp hlen
    have ha := hp a (by simp)
    have hb := hp b (by simp)
    have hF : substitute Handler.Memory.url [a, b] = String.mk (joinSlash
        ([[], "redfish".toList, "v1".toList, "Systems".toList, a.toList, "Memory".toList] ++
          [b.toList])) := rfl
    have hT : parseTemplate Handler.Memory.url =
        [Segment.literal "", Segment.literal "redfish", Segment.literal "v1",
          Segment.literal "Systems", Segment.placeholder, Segment.literal "Memory",
          Segment.placeholder] := by
      decide
    have hP := pathSegments_joinSlash_plain
      [[], "redfish".toList, "v1".toList, "Systems".toList, a.toList, "Memory".toList]
      (b.toList) (toList_ne_nil_of_ne_empty _ hb.1) (by
        intro seg hseg
        simp only [List.mem_cons, List.mem_singleton, List.mem_append, List.not_mem_nil,
          or_false] at hseg
        rcases hseg with (rfl | rfl | rfl | rfl | rfl | rfl) | rfl <;>
          first
          | exact ha.2
          | exact hb.2
          | decide)
    unfold matchTemplate
    rw [hF, hP, hT]
    show matchSegments _ ["", "redfish", "v1", "Systems", a, "Memory", b] = _
    simp [matchSegments, ha.1, hb.1]

/-- Witness for C14: the processor `cpu0` of `system1`. -/
theorem substitute_roundtrip_witness :
    substitute Handler.Processor.url ["system1", "cpu0"] =
      "/redfish/v1/Systems/system1/Processors/cpu0" ∧
    matchTemplate Handler.Processor.url (substitute Handler.Processor.url ["system1", "cpu0"]) =
      some ["system1", "cpu0"] :=
  ⟨by decide, substitute_roundtrip Handler.Processor ["system1", "cpu0"] (by decide) (by decide)⟩

/-- Templates that match the same segments are compatible. -/
theorem compatible_of_match (ts us : List Segment) (segs p q : List String)
    (h1 : matchSegments ts segs = some p) (h2 : matchSegments us segs = some q) :
    compatible ts us = true := by
  induction ts generalizing us segs p q with
  | nil =>
    cases segs with
    | nil =>
      cases us with
      | nil => rfl
      | cons u us => cases u <;> simp [matchSegments] at h2
    | cons s ss => simp [matchSegments] at h1
  | cons t ts ih =>
    cases segs with
    | nil => cases t <;> simp [matchSegments] at h1
    | cons s ss =>
      cases us with
      | nil => simp [matchSegments] at h2
      | cons u us =>
        cases t with
        | literal a =>
          cases u with
          | literal b =>
            simp only [matchSegments] at h1 h2
            split at h1
            · next ha =>
              split at h2
              · next hb =>
                simp only [compatible, Bool.and_eq_true, beq_iff_eq]
                exact ⟨ha.trans hb.symm, ih us ss p q h1 h2⟩
              · cases h2
            · cases h1
          | placeholder =>
            simp only [matchSegments] at h1 h2
            split at h1
            · split at h2
              · cases h2
              · obtain ⟨q', hq', _⟩ := Option.map_eq_some'.mp h2
                exact ih us ss p q' h1 hq'
            · cases h1
        | placeholder =>
          simp only [matchSegments] at h1
          split at h1
          · cases h1
          · obtain ⟨p', hp', _⟩ := Option.map_eq_some'.mp h1
            cases u with
            | literal b =>
              simp only [matchSegments] at h2
              split at h2
              · exact ih us ss p' q hp' h2
              · cases h2
            | placeholder =>
              simp only [matchSegments] at h2
              split at h2
              · cases h2
              · obtain ⟨q', hq', _⟩ := Option.map_eq_some'.mp h2
                exact ih us ss p' q' hp' hq'

/-- No two of the 13 URLs are compatible. -/
theorem handler_eq_of_compatible (h1 h2 : Handler)
    (hc : compatible (parseTemplate h1.url) (parseTemplate h2.url) = true) : h1 = h2 := by
  cases h1 <;> cases h2 <;>
    first
    | rfl
    | (exfalso; revert hc; decide)

/-- C15: the 13 URLs are pairwise distinct, and no request path matches two
of them: whenever a path matches the URLs of two handlers, these are one and
the same handler with the same captured parameters; so in every registry that
contains the handler, in whatever order, the path resolves to that handler. -/
theorem routes_do_not_overlap (path : String) (h1 h2 : Handler) (p1 p2 : List String)
    (hm1 : matchTemplate h1.url path = some p1) (hm2 : matchTemplate h2.url path = some p2) :
    h1 = h2 ∧ p1 = p2 ∧
    (∀ a b : Handler, a.url = b.url → a = b) ∧
    (∀ registry : List Handler, h1 ∈ registry → findRoute registry path = some (h1, p1)) := by
  have huniq : ∀ (a b : Handler) (pa pb : List String),
      matchTemplate a.url path = some pa → matchTemplate b.url path = some pb →
      a = b ∧ pa = pb := by
    intro a b pa pb ha hb
    have hab : a = b :=
      handler_eq_of_compatible a b (compatible_of_match _ _ _ _ _ ha hb)
    subst hab
    rw [ha] at hb
    exact ⟨rfl, Option.some.inj hb⟩
  refine ⟨(huniq h1 h2 p1 p2 hm1 hm2).1, (huniq h1 h2 p1 p2 hm1 hm2).2, ?_, ?_⟩
  · intro a b hab
    cases a <;> cases b <;>
      first
      | rfl
      | (exfalso; revert hab; decide)
  · intro registry hmem
    induction registry with
    | nil => cases hmem
    | cons h hs ih =>
      unfold findRoute
      cases hm : matchTemplate h.url path with
      | some ps =>
        obtain ⟨hh, hps⟩ := huniq h h1 ps p1 hm hm1
        simp only [hh, hps]
      | none =>
        have hne : h1 ≠ h := by
          intro hh
          rw [← hh, hm1] at hm
          cases hm
        have hmem' : h1 ∈ hs := by
          rcases List.mem_cons.mp hmem with hh | hh
          · exact absurd hh hne
          · exact hh
        simpa using ih hmem'

/-- Witness for C15: the path of the processor `cpu0` of `system1`. -/
theorem routes_do_not_overlap_witness :
    matchTemplate Handler.Processor.url "/redfish/v1/Systems/system1/Processors/cpu0" =
      some ["system1", "cpu0"] ∧
    findRoute RmcRedfishService.nodes.reverse "/redfish/v1/Systems/system1/Processors/cpu0" =
      some (Handler.Processor, ["system1", "cpu0"]) :=
  ⟨by decide,
    (routes_do_not_overlap "/redfish/v1/Systems/system1/Processors/cpu0" Handler.Processor
      Handler.Processor ["system1", "cpu0"] ["system1", "cpu0"] (by decide) (by decide)).2.2.2
      RmcRedfishService.nodes.reverse (by decide)⟩

/-- The self link of each handler, written as the concatenation of the pieces
of its URL and the parameters. -/
theorem selfLink_eq (a b : String) :
    Handler.ChassisCollection.selfLink [] = "/redfish/v1/Chassis" ∧
    Handler.Chassis.selfLink [a] = "/redfish/v1/Chassis/" ++ a ∧
    Handler.Power.selfLink [a] = "/redfish/v1/Chassis/" ++ a ++ "/Power" ∧
    Handler.ManagerActionsReset.selfLink [] = "/redfish/v1/Managers/rmc/Actions/Manager.Reset" ∧
    Handler.Manager.selfLink [] = "/redfish/v1/Managers/rmc" ∧
    Handler.ManagerCollection.selfLink [] = "/redfish/v1/Managers" ∧
    Handler.SystemsCollection.selfLink [] = "/redfish/v1/Systems" ∧
    Handler.SystemActionsReset.selfLink [a] = "/redfish/v1/Systems/" ++ a ++ "/Actions/ComputerSystem.Reset" ∧
    Handler.Systems.selfLink [a] = "/redfish/v1/Systems/" ++ a ∧
    Handler.ProcessorCollection.selfLink [a] = "/redfish/v1/Systems/" ++ a ++ "/Processors" ∧
    Handler.MemoryCollection.selfLink [a] = "/redfish/v1/Systems/" ++ a ++ "/Memory" ∧
    Handler.Processor.selfLink [a, b] = "/redfish/v1/Systems/" ++ a ++ "/Processors/" ++ b ∧
    Handler.Memory.selfLink [a, b] = "/redfish/v1/Systems/" ++ a ++ "/Memory/" ++ b := by
  refine ⟨?_, ?_, ?_, ?_, ?_, ?_, ?_, ?_, ?_, ?_, ?_, ?_, ?_⟩
  · decide
  · have hF : fillSegments (splitSlash (stripTrailingSlash Handler.Chassis.url.toList)) [a] =
        [[], "redfish".toList, "v1".toList, "Chassis".toList, a.toList] := rfl
    apply String.ext
    show joinSlash (fillSegments (splitSlash (stripTrailingSlash Handler.Chassis.url.toList)) [a]) = _
    rw [hF]
    simp [joinSlash, String.data_append]
  · have hF : fillSegments (splitSlash (stripTrailingSlash Handler.Power.url.toList)) [a] =
        [[], "redfish".toList, "v1".toList, "Chassis".toList, a.toList, "Power".toList] := rfl
    apply String.ext
    show joinSlash (fillSegments (splitSlash (stripTrailingSlash Handler.Power.url.toList)) [a]) = _
    rw [hF]
    simp [joinSlash, String.data_append]
  · decide
  · decide
  · decide
  · decide
  · have hF : fillSegments (splitSlash (stripTrailingSlash Handler.SystemActionsReset.url.toList)) [a] =
        [[], "redfish".toList, "v1".toList, "Systems".toList, a.toList, "Actions".toList, "ComputerSystem.Reset".toList] := rfl
    apply String.ext
    show joinSlash (fillSegments (splitSlash (stripTrailingSlash Handler.SystemActionsReset.url.toList)) [a]) = _
    rw [hF]
    simp [joinSlash, String.data_append]
  · have hF : fillSegments (splitSlash (stripTrailingSlash Handler.Systems.url.toList)) [a] =
        [[], "redfish".toList, "v1".toList, "Systems".toList, a.toList] := rfl
    apply String.ext
    show joinSlash (fillSegments (splitSlash (stripTrailingSlash Handler.Systems.url.toList)) [a]) = _
    rw [hF]
    simp [joinSlash, String.data_append]
  · have hF : fillSegments (splitSlash (stripTrailingSlash Handler.ProcessorCollection.url.toList)) [a] =
        [[], "redfish".toList, "v1".toList, "Systems".toList, a.toList, "Processors".toList] := rfl
    apply String.ext
    show joinSlash (fillSegments (splitSlash (stripTrailingSlash Handler.ProcessorCollection.url.toList)) [a]) = _
    rw [hF]
    simp [joinSlash, String.data_append]
  · have hF : fillSegments (splitSlash (stripTrailingSlash Handler.MemoryCollection.url.toList)) [a] =
        [[], "redfish".toList, "v1".toList, "Systems".toList, a.toList, "Memory".toList] := rfl
    apply String.ext
    show joinSlash (fillSegments (splitSlash (stripTrailingSlash Handler.MemoryCollection.url.toList)) [a]) = _
    rw [hF]
    simp [joinSlash, String.data_append]
  · have hF : fillSegments (splitSlash (stripTrailingSlash Handler.Processor.url.toList)) [a, b] =
        [[], "redfish".toList, "v1".toList, "Systems".toList, a.toList, "Processors".toList, b.toList] := rfl
    apply String.ext
    show joinSlash (fillSegments (splitSlash (stripTrailingSlash Handler.Processor.url.toList)) [a, b]) = _
    rw [hF]
    simp [joinSlash, String.data_append]
  · have hF : fillSegments (splitSlash (stripTrailingSlash Handler.Memory.url.toList)) [a, b] =
        [[], "redfish".toList, "v1".toList, "Systems".toList, a.toList, "Memory".toList, b.toList] := rfl
    apply String.ext
    show joinSlash (fillSegments (splitSlash (stripTrailingSlash Handler.Memory.url.toList)) [a, b]) = _
    rw [hF]
    simp [joinSlash, String.data_append]

/-- Removing the trailing slash of the URL before the substitution, or of the
path after it, gives the same link when no parameter is empty or has a
slash. -/
theorem selfLink_eq_strip_substitute (h : Handler) (params : List String)
    (hlen : params.length = h.paramCount)
    (hp : ∀ p, p ∈ params → p ≠ "" ∧ '/' ∉ p.toList) :
    h.selfLink params = String.mk (stripTrailingSlash (substitute h.url params).toList) := by
  cases h <;> simp only [Handler.paramCount] at hlen
  case ChassisCollection =>
    obtain rfl := List.length_eq_zero.mp hlen
    decide
  case Chassis =>
    obtain ⟨a, rfl⟩ := List.length_eq_one.mp hlen
    have ha := hp a (List.mem_singleton_self a)
    have hS : Handler.Chassis.selfLink [a] = String.mk (joinSlash
        [[], "redfish".toList, "v1".toList, "Chassis".toList, a.toList]) := rfl
    have hF : (substitute Handler.Chassis.url [a]).toList = joinSlash
        ([[], "redfish".toList, "v1".toList, "Chassis".toList, a.toList] ++ [[]]) := rfl
    rw [hS, hF, stripTrailingSlash_joinSlash_trailing _ (List.cons_ne_nil _ _)]
  case Power =>
    obtain ⟨a, rfl⟩ := List.length_eq_one.mp hlen
    have ha := hp a (List.mem_singleton_self a)
    have hS : Handler.Power.selfLink [a] = String.mk (joinSlash
        [[], "redfish".toList, "v1".toList, "Chassis".toList, a.toList, "Power".toList]) := rfl
    have hF : (substitute Handler.Power.url [a]).toList = joinSlash
        ([[], "redfish".toList, "v1".toList, "Chassis".toList, a.toList, "Power".toList] ++ [[]]) := rfl
    rw [hS, hF, stripTrailingSlash_joinSlash_trailing _ (List.cons_ne_nil _ _)]
  case ManagerActionsReset =>
    obtain rfl := List.length_eq_zero.mp hlen
    decide
  case Manager =>
    obtain rfl := List.length_eq_zero.mp hlen
    decide
  case ManagerCollection =>
    obtain rfl := List.length_eq_zero.mp hlen
    decide
  case SystemsCollection =>
    obtain rfl := List.length_eq_zero.mp hlen
    decide
  case SystemActionsReset =>
    obtain ⟨a, rfl⟩ := List.length_eq_one.mp hlen
    have ha := hp a (List.mem_singleton_self a)
    have hS : Handler.SystemActionsReset.selfLink [a] = String.mk (joinSlash
        [[], "redfish".toList, "v1".toList, "Systems".toList, a.toList, "Actions".toList, "ComputerSystem.Reset".toList]) := rfl
    have hF : (substitute Handler.SystemActionsReset.url [a]).toList = joinSlash
        ([[], "redfish".toList, "v1".toList, "Systems".toList, a.toList, "Actions".toList, "ComputerSystem.Reset".toList] ++ [[]]) := rfl
    rw [hS, hF, stripTrailingSlash_joinSlash_trailing _ (List.cons_ne_nil _ _)]
  case Systems =>
    obtain ⟨a, rfl⟩ := List.length_eq_one.mp hlen
    have ha := hp a (List.mem_singleton_self a)
    have hS : Handler.Systems.selfLink [a] = String.mk (joinSlash
        [[], "redfish".toList, "v1".toList, "Systems".toList, a.toList]) := rfl
    have hF : (substitute Handler.Systems.url [a]).toList = joinSlash
        ([[], "redfish".toList, "v1".toList, "Systems".toList, a.toList] ++ [[]]) := rfl
    rw [hS, hF, stripTrailingSlash_joinSlash_trailing _ (List.cons_ne_nil _ _)]
  case ProcessorCollection =>
    obtain ⟨a, rfl⟩ := List.length_eq_one.mp hlen
    have ha := hp a (List.mem_singleton_self a)
    have hS : Handler.ProcessorCollection.selfLink [a] = String.mk (joinSlash
        ([[], "redfish".toList, "v1".toList, "Systems".toList, a.toList] ++ ["Processors".toList])) := rfl
    have hF : (substitute Handler.ProcessorCollection.url [a]).toList = joinSlash
        ([[], "redfish".toList, "v1".toList, "Systems".toList, a.toList] ++ ["Processors".toList]) := rfl
    rw [hS, hF, stripTrailingSlash_joinSlash_plain _ _ (by decide) (by decide)]
  case MemoryCollection =>
    obtain ⟨a, rfl⟩ := List.length_eq_one.mp hlen
    have ha := hp a (List.mem_singleton_self a)
    have hS : Handler.MemoryCollection.selfLink [a] = String.mk (joinSlash
        ([[], "redfish".toList, "v1".toList, "Systems".toList, a.toList] ++ ["Memory".toList])) := rfl
    have hF : (substitute Handler.MemoryCollection.url [a]).toList = joinSlash
        ([[], "redfish".toList, "v1".toList, "Systems".toList, a.toList] ++ ["Memory".toList]) := rfl
    rw [hS, hF, stripTrailingSlash_joinSlash_plain _ _ (by decide) (by decide)]
  case Processor =>
    obtain ⟨a, b, rfl⟩ := List.length_eq_two.mp hlen
    have ha := hp a (List.mem_cons_self a _)
    have hb := hp b (List.mem_cons_of_mem a (List.mem_singleton_self b))
    have hS : Handler.Processor.selfLink [a, b] = String.mk (joinSlash
        ([[], "redfish".toList, "v1".toList, "Systems".toList, a.toList, "Processors".toList] ++ [b.toList])) := rfl
    have hF : (substitute Handler.Processor.url [a, b]).toList = joinSlash
        ([[], "redfish".toList, "v1".toList, "Systems".toList, a.toList, "Processors".toList] ++ [b.toList]) := rfl
    rw [hS, hF, stripTrailingSlash_joinSlash_plain _ _
      (toList_ne_nil_of_ne_empty b hb.1) hb.2]
  case Memory =>
    obtain ⟨a, b, rfl⟩ := List.length_eq_two.mp hlen
    have ha := hp a (List.mem_cons_self a _)
    have hb := hp b (List.mem_cons_of_mem a (List.mem_singleton_self b))
    have hS : Handler.Memory.selfLink [a, b] = String.mk (joinSlash
        ([[], "redfish".toList, "v1".toList, "Systems".toList, a.toList, "Memory".toList] ++ [b.toList])) := rfl
    have hF : (substitute Handler.Memory.url [a, b]).toList = joinSlash
        ([[], "redfish".toList, "v1".toList, "Systems".toList, a.toList, "Memory".toList] ++ [b.toList]) := rfl
    rw [hS, hF, stripTrailingSlash_joinSlash_plain _ _
      (toList_ne_nil_of_ne_empty b hb.1) hb.2]

/-- What the GET handlers that take parameters send as `@odata.id`. -/
theorem doGet_sent_id (a b : String) :
    (Chassis.doGet [a] State.init).map (fun st => st.res.sent.bind fun s =>
        s.body.get? "@odata.id") =
      some (some (Json.str ("/redfish/v1/Chassis/" ++ a))) ∧
    (Power.doGet [a] State.init).map (fun st => st.res.sent.bind fun s =>
        s.body.get? "@odata.id") =
      some (some (Json.str ("/redfish/v1/Chassis/" ++ a ++ "/Power"))) ∧
    (Systems.doGet [a] State.init).map (fun st => st.res.sent.bind fun s =>
        s.body.get? "@odata.id") =
      some (some (Json.str ("/redfish/v1/Systems/" ++ a))) ∧
    (ProcessorCollection.doGet [a] State.init).map (fun st => st.res.sent.bind fun s =>
        s.body.get? "@odata.id") =
      some (some (Json.str ("/redfish/v1/Systems/" ++ a ++ "/Processors"))) ∧
    (MemoryCollection.doGet [a] State.init).map (fun st => st.res.sent.bind fun s =>
        s.body.get? "@odata.id") =
      some (some (Json.str ("/redfish/v1/Systems/" ++ a ++ "/Memory"))) ∧
    (Processor.doGet [a, b] State.init).map (fun st => st.res.sent.bind fun s =>
        s.body.get? "@odata.id") =
      some (some (Json.str ("/redfish/v1/Systems/" ++ a ++ "/Processors/" ++ b))) ∧
    (Memory.doGet [a, b] State.init).map (fun st => st.res.sent.bind fun s =>
        s.body.get? "@odata.id") =
      some (some (Json.str ("/redfish/v1/Systems/" ++ a ++ "/Memory/" ++ b))) :=
  ⟨rfl, rfl, rfl, rfl, rfl, rfl, rfl⟩

/-- What the GET handlers that take no parameter send as `@odata.id`. -/
theorem doGet_sent_id_collections (env : Env) (params : List String) (hclock : env.clockOk) :
    (ChassisCollection.doGet params State.init).map (fun st => st.res.sent.bind fun s =>
        s.body.get? "@odata.id") =
      some (some (Json.str "/redfish/v1/Chassis")) ∧
    (Manager.doGet env params State.init).map (fun st => st.res.sent.bind fun s =>
        s.body.get? "@odata.id") =
      some (some (Json.str "/redfish/v1/Managers/rmc")) ∧
    (ManagerCollection.doGet params State.init).map (fun st => st.res.sent.bind fun s =>
        s.body.get? "@odata.id") =
      some (some (Json.str "/redfish/v1/Managers")) ∧
    (SystemsCollection.doGet params State.init).map (fun st => st.res.sent.bind fun s =>
        s.body.get? "@odata.id") =
      some (some (Json.str "/redfish/v1/Systems")) := by
  refine ⟨rfl, ?_, rfl, rfl⟩
  obtain ⟨d, hd⟩ := Manager_getDateTime_isSome env hclock
  unfold Manager.doGet
  rw [hd]
  rfl

/-- C16: every GET handler, called with as many parameters as its URL has
placeholders, returns having sent a body whose `@odata.id` is the URL of the
handler without its trailing slash, with the parameters substituted for the
placeholders, in order. When no parameter is empty or has a slash, this is
also the path that results from the substitution into the URL, without its
trailing slash. For `Processor` with the parameters `s` and `p` it is
`/redfish/v1/Systems/s/Processors/p`. -/
theorem doGet_self_link (env : Env) (h : Handler) (f : Request → List String → Op)
    (req : Request) (params : List String)
    (hrun : h.run env Verb.get = some f) (hclock : env.clockOk)
    (hlen : params.length = h.paramCount) :
    ∃ st s, f req params State.init = some st ∧ st.res.sent = some s ∧
      s.body.get? "@odata.id" = some (Json.str (h.selfLink params)) ∧
      ((∀ p, p ∈ params → p ≠ "" ∧ '/' ∉ p.toList) →
        h.selfLink params =
          String.mk (stripTrailingSlash (substitute h.url params).toList)) ∧
      (∀ s p, h = Handler.Processor → params = [s, p] →
        h.selfLink params = "/redfish/v1/Systems/" ++ s ++ "/Processors/" ++ p) := by
  have hstrip := selfLink_eq_strip_substitute h params hlen
  have hproc : ∀ s p, h = Handler.Processor → params = [s, p] →
      h.selfLink params = "/redfish/v1/Systems/" ++ s ++ "/Processors/" ++ p := by
    intro s p hh hps
    subst hh
    subst hps
    exact (selfLink_eq s p).2.2.2.2.2.2.2.2.2.2.2.1
  have key : ∀ (o : Option State) (id link : String),
      o.map (fun st => st.res.sent.bind fun s => s.body.get? "@odata.id") =
        some (some (Json.str id)) → link = id →
      ∃ st s, o = some st ∧ st.res.sent = some s ∧
        s.body.get? "@odata.id" = some (Json.str link) := by
    intro o id link ho hl
    subst hl
    obtain ⟨st, hst, hobs⟩ := exists_of_map_eq_some ho
    obtain ⟨s, hs, hs'⟩ := Option.bind_eq_some.mp hobs
    exact ⟨st, s, hst, hs, hs'⟩
  have fin : (∃ st s, f req params State.init = some st ∧ st.res.sent = some s ∧
      s.body.get? "@odata.id" = some (Json.str (h.selfLink params))) →
      ∃ st s, f req params State.init = some st ∧ st.res.sent = some s ∧
        s.body.get? "@odata.id" = some (Json.str (h.selfLink params)) ∧
        ((∀ p, p ∈ params → p ≠ "" ∧ '/' ∉ p.toList) →
          h.selfLink params =
            String.mk (stripTrailingSlash (substitute h.url params).toList)) ∧
        (∀ s p, h = Handler.Processor → params = [s, p] →
          h.selfLink params = "/redfish/v1/Systems/" ++ s ++ "/Processors/" ++ p) := by
    rintro ⟨st, s, h1, h2, h3⟩
    exact ⟨st, s, h1, h2, h3, hstrip, hproc⟩
  apply fin
  clear fin hstrip hproc
  cases h <;> simp [Handler.run] at hrun <;> subst hrun <;>
    simp only [Handler.paramCount] at hlen
  case ChassisCollection =>
    obtain rfl := List.length_eq_zero.mp hlen
    exact key _ _ _ ((doGet_sent_id_collections env [] hclock).1)
      ((selfLink_eq "" "").1)
  case Chassis =>
    obtain ⟨a, rfl⟩ := List.length_eq_one.mp hlen
    exact key _ _ _ ((doGet_sent_id a "").1)
      ((selfLink_eq a "").2.1)
  case Power =>
    obtain ⟨a, rfl⟩ := List.length_eq_one.mp hlen
    exact key _ _ _ ((doGet_sent_id a "").2.1)
      ((selfLink_eq a "").2.2.1)
  case Manager =>
    obtain rfl := List.length_eq_zero.mp hlen
    exact key _ _ _ ((doGet_sent_id_collections env [] hclock).2.1)
      ((selfLink_eq "" "").2.2.2.2.1)
  case ManagerCollection =>
    obtain rfl := List.length_eq_zero.mp hlen
    exact key _ _ _ ((doGet_sent_id_collections env [] hclock).2.2.1)
      ((selfLink_eq "" "").2.2.2.2.2.1)
  case SystemsCollection =>
    obtain rfl := List.length_eq_zero.mp hlen
    exact key _ _ _ ((doGet_sent_id_collections env [] hclock).2.2.2)
      ((selfLink_eq "" "").2.2.2.2.2.2.1)
  case Systems =>
    obtain ⟨a, rfl⟩ := List.length_eq_one.mp hlen
    exact key _ _ _ ((doGet_sent_id a "").2.2.1)
      ((selfLink_eq a "").2.2.2.2.2.2.2.2.1)
  case ProcessorCollection =>
    obtain ⟨a, rfl⟩ := List.length_eq_one.mp hlen
    exact key _ _ _ ((doGet_sent_id a "").2.2.2.1)
      ((selfLink_eq a "").2.2.2.2.2.2.2.2.2.1)
  case MemoryCollection =>
    obtain ⟨a, rfl⟩ := List.length_eq_one.mp hlen
    exact key _ _ _ ((doGet_sent_id a "").2.2.2.2.1)
      ((selfLink_eq a "").2.2.2.2.2.2.2.2.2.2.1)
  case Processor =>
    obtain ⟨a, b, rfl⟩ := List.length_eq_two.mp hlen
    exact key _ _ _ ((doGet_sent_id a b).2.2.2.2.2.1)
      ((selfLink_eq a b).2.2.2.2.2.2.2.2.2.2.2.1)
  case Memory =>
    obtain ⟨a, b, rfl⟩ := List.length_eq_two.mp hlen
    exact key _ _ _ ((doGet_sent_id a b).2.2.2.2.2.2)
      ((selfLink_eq a b).2.2.2.2.2.2.2.2.2.2.2.2)

/-- Witness for C16: the processor `cpu0` of `system1`. -/
theorem doGet_self_link_witness :
    ∃ st s, Processor.doGet ["system1", "cpu0"] State.init = some st ∧ st.res.sent = some s ∧
      s.body.get? "@odata.id" =
        some (Json.str (Handler.Processor.selfLink ["system1", "cpu0"])) ∧
      ((∀ p, p ∈ ["system1", "cpu0"] → p ≠ "" ∧ '/' ∉ p.toList) →
        Handler.Processor.selfLink ["system1", "cpu0"] =
          String.mk (stripTrailingSlash
            (substitute Handler.Processor.url ["system1", "cpu0"]).toList)) ∧
      (∀ s p, Handler.Processor = Handler.Processor → ["system1", "cpu0"] = [s, p] →
        Handler.Processor.selfLink ["system1", "cpu0"] =
          "/redfish/v1/Systems/" ++ s ++ "/Processors/" ++ p) :=
  doGet_self_link ⟨"uuid", none⟩ Handler.Processor (fun _ => Processor.doGet) ⟨none⟩
    ["system1", "cpu0"] rfl
    (by
      intro s hs
      cases hs)
    rfl

/-- A string that has a shape has the length of the shape. -/
theorem matchesShape_length (ps cs : List Char) (h : matchesShape ps cs = true) :
    cs.length = ps.length := by
  induction ps generalizing cs with
  | nil =>
    cases cs with
    | nil => rfl
    | cons c cs => simp [matchesShape] at h
  | cons p ps ih =>
    cases cs with
    | nil => simp [matchesShape] at h
    | cons c cs =>
      simp only [matchesShape, Bool.and_eq_true] at h
      simp [ih cs h.2]

/-- A string has the shape `ps ++ qs` exactly when its first `ps.length`
characters have the shape `ps` and the others the shape `qs`. -/
theorem matchesShape_append (ps qs cs ds : List Char) (hlen : cs.length = ps.length) :
    matchesShape (ps ++ qs) (cs ++ ds) = (matchesShape ps cs && matchesShape qs ds) := by
  induction ps generalizing cs with
  | nil =>
    cases cs with
    | nil =>
      cases qs <;> cases ds <;> simp [matchesShape]
    | cons c cs => simp at hlen
  | cons p ps ih =>
    cases cs with
    | nil => simp at hlen
    | cons c cs =>
      have hlen' : cs.length = ps.length := by simpa using hlen
      show ((if p = 'd' then c.isDigit else if p = 's' then (decide (c = '+') || decide (c = '-'))
        else decide (c = p)) && matchesShape (ps ++ qs) (cs ++ ds)) =
        (((if p = 'd' then c.isDigit else if p = 's' then (decide (c = '+') || decide (c = '-'))
        else decide (c = p)) && matchesShape ps cs) && matchesShape qs ds)
      rw [ih cs hlen', Bool.and_assoc]

/-- The result of `Manager::getDateTime` on a formatted string of at least two
characters: the string with a colon before its last two characters. -/
theorem Manager_getDateTime_insert (s : String) (h2 : 2 ≤ s.length) :
    Manager.getDateTime (some s) =
      some (String.mk (s.toList.take (s.length - 2) ++ ':' :: s.toList.drop (s.length - 2))) := by
  have h : ¬ s.toList.length < 2 := Nat.not_lt.mpr h2
  show (if s.toList.length < 2 then none else some _) = _
  rw [if_neg h]
  rfl

/-- C21: `Manager::getDateTime` as a function of the outcome of `strftime`.
When `strftime` wrote a string `s` of the shape `YYYY-MM-DDTHH:MM:SS±hhmm` (24
characters), the result is `s` with one colon inserted before its last two
characters: it has 25 characters and the shape `YYYY-MM-DDTHH:MM:SS±hh:mm`,
its characters before position 22 and after it are those of `s`, in order, and
removing the colon at position 22 gives `s` back. When `strftime` returned 0,
the result is `0000-00-00T00:00:00Z00:00`. -/
theorem Manager_getDateTime_spec (s : String)
    (hs : matchesShape strftimeShape s.toList = true) :
    ∃ d, Manager.getDateTime (some s) = some d ∧
      s.length = 24 ∧ d.length = 25 ∧
      d.toList = s.toList.take (s.length - 2) ++ ':' :: s.toList.drop (s.length - 2) ∧
      d.toList = s.toList.take 22 ++ ':' :: s.toList.drop 22 ∧
      matchesShape redfishShape d.toList = true ∧
      (∀ i, i < 22 → d.toList[i]? = s.toList[i]?) ∧
      d.toList[22]? = some ':' ∧
      (∀ i, 22 ≤ i → d.toList[i + 1]? = s.toList[i]?) ∧
      d.toList.eraseIdx 22 = s.toList ∧
      Manager.getDateTime none = some "0000-00-00T00:00:00Z00:00" := by
  have hlen : s.toList.length = 24 := matchesShape_length _ _ hs
  have hlen' : s.length = 24 := hlen
  have htake : (s.toList.take 22).length = 22 := by
    rw [List.length_take, hlen]
    rfl
  have hsplit : s.toList = s.toList.take 22 ++ s.toList.drop 22 :=
    (List.take_append_drop 22 s.toList).symm
  have htake' : (s.toList.take 22).length = "dddd-dd-ddTdd:dd:ddsdd".toList.length :=
    htake.trans (by decide)
  have hshape : (matchesShape "dddd-dd-ddTdd:dd:ddsdd".toList (s.toList.take 22) &&
      matchesShape "dd".toList (s.toList.drop 22)) = true := by
    rw [← matchesShape_append "dddd-dd-ddTdd:dd:ddsdd".toList "dd".toList _ _ htake', ← hsplit]
    exact hs
  rw [Bool.and_eq_true] at hshape
  refine ⟨String.mk (s.toList.take 22 ++ ':' :: s.toList.drop 22), ?_, hlen', ?_, ?_, rfl,
    ?_, ?_, ?_, ?_, ?_, rfl⟩
  · rw [Manager_getDateTime_insert s (by omega), hlen']
  · show (s.toList.take 22 ++ ':' :: s.toList.drop 22).length = 25
    rw [List.length_append, htake, List.length_cons, List.length_drop, hlen]
  · rw [hlen']
    rfl
  · show matchesShape ("dddd-dd-ddTdd:dd:ddsdd".toList ++ ":dd".toList)
      (s.toList.take 22 ++ ':' :: s.toList.drop 22) = true
    rw [matchesShape_append "dddd-dd-ddTdd:dd:ddsdd".toList ":dd".toList _ _ htake', hshape.1]
    show (true && (decide (':' = ':') && matchesShape "dd".toList (s.toList.drop 22))) = true
    rw [hshape.2]
    rfl
  · intro i hi
    show (s.toList.take 22 ++ ':' :: s.toList.drop 22)[i]? = _
    rw [List.getElem?_append_left (by omega), List.getElem?_take_of_lt hi]
  · show (s.toList.take 22 ++ ':' :: s.toList.drop 22)[22]? = _
    rw [List.getElem?_append_right (by omega), htake]
    simp
  · intro i hi
    show (s.toList.take 22 ++ ':' :: s.toList.drop 22)[i + 1]? = _
    rw [List.getElem?_append_right (by omega), htake]
    obtain ⟨k, rfl⟩ := Nat.exists_eq_add_of_le hi
    rw [show 22 + k + 1 - 22 = k + 1 by omega, List.getElem?_cons_succ, List.getElem?_drop]
  · show (s.toList.take 22 ++ ':' :: s.toList.drop 22).eraseIdx 22 = _
    rw [List.eraseIdx_append_of_length_le (by omega), htake]
    show s.toList.take 22 ++ s.toList.drop 22 = _
    exact hsplit.symm

/-- Witness for C21: the ninth of May 2018, noon, eight hours east. -/
theorem Manager_getDateTime_spec_witness :
    matchesShape strftimeShape "2018-05-09T12:00:00+0800".toList = true ∧
    Manager.getDateTime (some "2018-05-09T12:00:00+0800") = some "2018-05-09T12:00:00+08:00" := by
  refine ⟨by decide, ?_⟩
  obtain ⟨d, hd, _, _, _, hd', _⟩ :=
    Manager_getDateTime_spec "2018-05-09T12:00:00+0800" (by decide)
  rw [hd]
  exact congrArg some (String.ext hd')

end redfish
